import Mathlib

/-!
# Voyager: renderer, certificate client helpers and the route synthesis contract

A shallow embedding of

* `pkg/haproxy/template/renderer.go` (`RenderConfig`, `CheckRenderedConfig`),
* `client/clientset/versioned/typed/voyager/v1beta1/util/certificate.go`
  (`CreateOrPatchCertificate`, `PatchCertificate`, `PatchCertificateObject`,
  `TryUpdateCertificate`, `UpateCertificateStatus`),

together with a model of the route-to-configuration synthesis described in
section 4.2 of the specification, whose Go source is not among the files at hand.

Conventions of the embedding.

* A Go `string` is a Lean `String`: the texts handled here are valid UTF-8, so a
  sequence of code points and its byte encoding determine each other.
* A Go `error` is an `Option GoError`, `none` being `nil`.
* Calls that leave the process (template execution, the file system, the
  `haproxy` binary, the API server) are fields of a record of operations over an
  explicit collaborator state; every call is also written to a trace, so that
  "is not called" and "is called exactly once" are statements about the trace.
* A nil-pointer dereference is the outcome `Run.panicked`.
* The lines `glog.V(3).Infof(...)` write to the verbose log only and are left out.
-/

namespace Voyager

/-! ## Go errors and formatting -/

/-- Go error values. `ext` is an error handed over by a collaborator (the API
server, the operating system, the template engine) together with the answer
`kerr.IsNotFound` gives for it; `errorf` is an error built by `errors.Errorf`. -/
inductive GoError where
  | ext (msg : String) (notFound : Bool)
  | errorf (msg : String)
  deriving DecidableEq, Repr

/-- The method `Error()`: the text `%s` and `%v` print for an error. -/
def GoError.Error : GoError → String
  | .ext msg _ => msg
  | .errorf msg => msg

/-- Go `kerr.IsNotFound(err)`: false for `nil` and for errors that are not API
status errors, such as those made by `errors.Errorf`. -/
def IsNotFound : Option GoError → Bool
  | some (.ext _ nf) => nf
  | _ => false

/-- Go `errors.Errorf` after formatting: the finished message becomes the error. -/
def Errorf (msg : String) : GoError := .errorf msg

/-- The verb `%d` applied to a non-negative `int`. -/
def fmtInt (n : Nat) : String := toString n

/-- The verb `%v` applied to a `bool`. -/
def fmtBool (b : Bool) : String := if b then "true" else "false"

/-! ## The functions of package `strings` used by the renderer -/

namespace strings

/-- Go `unicode.IsSpace`: the Latin-1 spaces and the code points with the Unicode
property White_Space. -/
def isSpace (c : Char) : Bool :=
  let n := c.toNat
  n == 9 || n == 10 || n == 11 || n == 12 || n == 13 || n == 32 ||
  n == 0x85 || n == 0xA0 || n == 0x1680 || (0x2000 ≤ n && n ≤ 0x200A) ||
  n == 0x2028 || n == 0x2029 || n == 0x202F || n == 0x205F || n == 0x3000

/-- Go `strings.TrimSpace` on code points: leading and trailing white space removed. -/
def trimChars (cs : List Char) : List Char :=
  ((cs.dropWhile isSpace).reverse.dropWhile isSpace).reverse

/-- Go `strings.TrimSpace`. -/
def TrimSpace (s : String) : String := ⟨trimChars s.data⟩

/-- Go `strings.Split` on code points for a one-character separator: the pieces
between consecutive separators, empty pieces included; a text without the
separator (the empty text too) gives one piece. -/
def splitChars (sep : Char) : List Char → List (List Char)
  | [] => [[]]
  | c :: cs =>
    if c = sep then [] :: splitChars sep cs
    else
      match splitChars sep cs with
      | [] => [[c]]
      | piece :: rest => (c :: piece) :: rest

/-- Go `strings.Split(s, sep)` for a separator of one character (the renderer
splits on the newline). -/
def Split (s : String) (sep : Char) : List String :=
  (splitChars sep s.data).map String.mk

/-- Go `strings.Join(elems, sep)`. -/
def Join : List String → String → String
  | [], _ => ""
  | [a], _ => a
  | a :: b :: rest, sep => a ++ sep ++ Join (b :: rest) sep

end strings

/-! ## `pkg/haproxy/template/renderer.go` -/

/-- The parts of `RenderConfig` that live outside `renderer.go`: the methods
`Canonicalize` and `IsValid` of `hpi.TemplateData` and the execution of the
parsed template. `ExecuteTemplate` yields what was written to the buffer
together with its error: a failing execution may already have written text. -/
structure TemplateOps (T D : Type) where
  Canonicalize : D → D
  IsValid : D → Option GoError
  ExecuteTemplate : T → String → D → String × Option GoError

/-- What `RenderConfig` does besides computing its result. -/
inductive RenderEvent (D : Type) where
  | executeTemplate (name : String) (data : D)
  | logError (e : GoError)
  deriving DecidableEq, Repr

/-- The loop of `RenderConfig`, lines 26 to 33: the lines of the buffer that are
not blank, joined by newlines. -/
def dropBlankLines (buf : String) : String :=
  strings.Join ((strings.Split buf '\n').filter (fun line => strings.TrimSpace line != "")) "\n"

/-- Go `RenderConfig(data)`. `haproxyTemplate` is the package-level parsed template
and `w` the trace of the process so far; the result is the returned pair and the
trace afterwards. -/
def RenderConfig {T D : Type} (ops : TemplateOps T D) (haproxyTemplate : T) (data : D)
    (w : List (RenderEvent D)) : (String × Option GoError) × List (RenderEvent D) :=
  let data := ops.Canonicalize data
  match ops.IsValid data with
  | some err => (("", some err), w)
  | none =>
    let w := w ++ [RenderEvent.executeTemplate "haproxy.cfg" data]
    match ops.ExecuteTemplate haproxyTemplate "haproxy.cfg" data with
    | (_, some err) => (("", some err), w ++ [RenderEvent.logError err])
    | (buf, none) => ((dropBlankLines buf, none), w)

/-- The operating system as `CheckRenderedConfig` uses it, over a host state `σ`:
`ioutil.WriteFile(name, data, perm)` and
`exec.Command(name, args...).CombinedOutput()`. -/
structure HostOps (σ : Type) where
  WriteFile : σ → String → String → Nat → Option GoError × σ
  CombinedOutput : σ → String → List String → (String × Option GoError) × σ

/-- Calls `CheckRenderedConfig` makes to the operating system. -/
inductive HostEvent where
  | writeFile (name data : String) (perm : Nat)
  | command (name : String) (args : List String)
  deriving DecidableEq, Repr

/-- Go `CheckRenderedConfig(cfg)`: the returned error, the host state afterwards and
the calls made, in order. `0777` is octal. -/
def CheckRenderedConfig {σ : Type} (host : HostOps σ) (s : σ) (cfg : String) :
    Option GoError × σ × List HostEvent :=
  match host.WriteFile s "/tmp/config.cfg" cfg 0o777 with
  | (some err, s1) => (some err, s1, [HostEvent.writeFile "/tmp/config.cfg" cfg 0o777])
  | (none, s1) =>
    match host.CombinedOutput s1 "haproxy" ["-c", "-f", "/tmp/config.cfg"] with
    | ((output, some err), s2) =>
      (some (Errorf ("invalid haproxy configuration, reason: " ++ err.Error ++
          ", message: " ++ output)), s2,
        [HostEvent.writeFile "/tmp/config.cfg" cfg 0o777,
         HostEvent.command "haproxy" ["-c", "-f", "/tmp/config.cfg"]])
    | ((_, none), s2) =>
      (none, s2,
        [HostEvent.writeFile "/tmp/config.cfg" cfg 0o777,
         HostEvent.command "haproxy" ["-c", "-f", "/tmp/config.cfg"]])

/-! ## `client/clientset/versioned/typed/voyager/v1beta1/util/certificate.go` -/

/-- Go `metav1.TypeMeta`. -/
structure TypeMeta where
  Kind : String
  APIVersion : String
  deriving DecidableEq, Repr

/-- Go `metav1.ObjectMeta`: the two fields the helpers read and some of the others. -/
structure ObjectMeta where
  Name : String
  Namespace : String
  ResourceVersion : String
  Labels : List (String × String)
  Annotations : List (String × String)
  deriving DecidableEq, Repr

/-- Go `api.Certificate`. The types of its `Spec` and `Status` are declared in
`apis/voyager/v1beta1` and are parameters here. -/
structure Certificate (Spec Status : Type) where
  TypeMeta : TypeMeta
  ObjectMeta : ObjectMeta
  Spec : Spec
  Status : Status
  deriving DecidableEq, Repr

/-- Go `kutil.VerbType`. -/
inductive VerbType where
  | VerbUnchanged
  | VerbCreated
  | VerbPatched
  | VerbUpdated
  | VerbDeleted
  deriving DecidableEq, Repr

/-- Go `types.PatchType`. -/
inductive PatchType where
  | JSONPatchType
  | MergePatchType
  | StrategicMergePatchType
  deriving DecidableEq, Repr

/-- A Go result pair `(*api.Certificate, error)`; `none` is `nil` on either side. -/
abbrev CertResult (Spec Status : Type) := Option (Certificate Spec Status) × Option GoError

/-- The certificate client `c.Certificates(namespace)` over a store state `σ`:
every method takes the namespace the client was made for, answers with a Go
result pair and leaves a new store state. -/
structure CertificateClient (σ Spec Status : Type) where
  Get : σ → String → String → CertResult Spec Status × σ
  Create : σ → String → Certificate Spec Status → CertResult Spec Status × σ
  Update : σ → String → Certificate Spec Status → CertResult Spec Status × σ
  UpdateStatus : σ → String → Certificate Spec Status → CertResult Spec Status × σ
  Patch : σ → String → String → PatchType → String → CertResult Spec Status × σ

/-- The two library functions under `PatchCertificateObject`: `json.Marshal` on a
certificate and `jsonpatch.CreateMergePatch`, each with its Go result pair. -/
structure JsonOps (Spec Status : Type) where
  Marshal : Certificate Spec Status → String × Option GoError
  CreateMergePatch : String → String → String × Option GoError

/-- Calls made by the helpers, in the order they happen: requests to the store,
invocations of the caller's transform functions (`transformNil` is the call
`transform(nil)`), and error log lines. -/
inductive CallEvent (Spec Status : Type) where
  | get (ns name : String)
  | create (ns : String) (obj : Certificate Spec Status)
  | update (ns : String) (obj : Certificate Spec Status)
  | updateStatus (ns : String) (obj : Certificate Spec Status)
  | patch (ns name : String) (pt : PatchType) (data : String)
  | transform (arg : Certificate Spec Status)
  | transformNil
  | transformStatus (arg : Status)
  | logError (msg : String)
  deriving DecidableEq, Repr

/-- Whether an event is a request to the store. -/
def CallEvent.isStoreCall {Spec Status : Type} : CallEvent Spec Status → Bool
  | .get _ _ => true
  | .create _ _ => true
  | .update _ _ => true
  | .updateStatus _ _ => true
  | .patch _ _ _ _ => true
  | _ => false

/-- How a Go call ends: it returns, or a nil pointer is dereferenced. -/
inductive Run (α : Type) where
  | returned (a : α)
  | panicked
  deriving DecidableEq, Repr

/-- Go `PatchCertificateObject(c, cur, mod)`: the returned triple, the store
afterwards and the calls made. -/
def PatchCertificateObject {σ Spec Status : Type} (c : CertificateClient σ Spec Status)
    (json : JsonOps Spec Status) (s : σ) (cur mod : Certificate Spec Status) :
    (Option (Certificate Spec Status) × VerbType × Option GoError) × σ ×
      List (CallEvent Spec Status) :=
  match json.Marshal cur with
  | (_, some err) => ((none, VerbType.VerbUnchanged, some err), s, [])
  | (curJson, none) =>
    match json.Marshal mod with
    | (_, some err) => ((none, VerbType.VerbUnchanged, some err), s, [])
    | (modJson, none) =>
      match json.CreateMergePatch curJson modJson with
      | (_, some err) => ((none, VerbType.VerbUnchanged, some err), s, [])
      | (patch, none) =>
        if patch.length == 0 || patch == "\x7b\x7d" then
          ((some cur, VerbType.VerbUnchanged, none), s, [])
        else
          match c.Patch s cur.ObjectMeta.Namespace cur.ObjectMeta.Name
              PatchType.MergePatchType patch with
          | ((out, err), s1) =>
            ((out, VerbType.VerbPatched, err), s1,
              [CallEvent.patch cur.ObjectMeta.Namespace cur.ObjectMeta.Name
                PatchType.MergePatchType patch])

/-- Go `PatchCertificate(c, cur, transform)`: `transform` receives a deep copy of
`cur`, which in a language of values is `cur`. -/
def PatchCertificate {σ Spec Status : Type} (c : CertificateClient σ Spec Status)
    (json : JsonOps Spec Status) (s : σ) (cur : Certificate Spec Status)
    (transform : Certificate Spec Status → Certificate Spec Status) :
    (Option (Certificate Spec Status) × VerbType × Option GoError) × σ ×
      List (CallEvent Spec Status) :=
  match PatchCertificateObject c json s cur (transform cur) with
  | (r, s1, tr) => (r, s1, CallEvent.transform cur :: tr)

/-- Go `json.Marshal` of a `*api.Certificate` that may be nil: a nil pointer
encodes as the JSON value `null`, an object as `json.Marshal` encodes it. -/
def marshalPointer {Spec Status : Type} (json : JsonOps Spec Status) :
    Option (Certificate Spec Status) → String × Option GoError
  | none => ("null", none)
  | some obj => json.Marshal obj

/-- Go `PatchCertificateObject(c, cur, mod)` for pointers that may be nil. Lines
41 to 57 read no field of `cur`; `cur.Namespace` and `cur.Name` are read at lines
58 and 59, when there is a patch to send. -/
def PatchCertificateObjectPtr {σ Spec Status : Type} (c : CertificateClient σ Spec Status)
    (json : JsonOps Spec Status) (s : σ) (cur mod : Option (Certificate Spec Status)) :
    Run ((Option (Certificate Spec Status) × VerbType × Option GoError) × σ ×
      List (CallEvent Spec Status)) :=
  match marshalPointer json cur with
  | (_, some err) => .returned ((none, VerbType.VerbUnchanged, some err), s, [])
  | (curJson, none) =>
    match marshalPointer json mod with
    | (_, some err) => .returned ((none, VerbType.VerbUnchanged, some err), s, [])
    | (modJson, none) =>
      match json.CreateMergePatch curJson modJson with
      | (_, some err) => .returned ((none, VerbType.VerbUnchanged, some err), s, [])
      | (patch, none) =>
        if patch.length == 0 || patch == "\x7b\x7d" then
          .returned ((cur, VerbType.VerbUnchanged, none), s, [])
        else
          match cur with
          | none => .panicked
          | some obj =>
            match c.Patch s obj.ObjectMeta.Namespace obj.ObjectMeta.Name
                PatchType.MergePatchType patch with
            | ((out, err), s1) =>
              .returned ((out, VerbType.VerbPatched, err), s1,
                [CallEvent.patch obj.ObjectMeta.Namespace obj.ObjectMeta.Name
                  PatchType.MergePatchType patch])

/-- Go `PatchCertificate(c, cur, transform)` for a `cur` that may be nil. The deep
copy of a nil pointer is nil, so `transform` is then called on nil:
`transformNil` is what that call does (it returns a pointer, nil or not, or
dereferences its argument), while `transform` is the caller's function on
objects, as in `PatchCertificate`. -/
def PatchCertificatePtr {σ Spec Status : Type} (c : CertificateClient σ Spec Status)
    (json : JsonOps Spec Status) (s : σ) (cur : Option (Certificate Spec Status))
    (transform : Certificate Spec Status → Certificate Spec Status)
    (transformNil : Run (Option (Certificate Spec Status))) :
    Run ((Option (Certificate Spec Status) × VerbType × Option GoError) × σ ×
      List (CallEvent Spec Status)) :=
  match cur with
  | some obj => .returned (PatchCertificate c json s obj transform)
  | none =>
    match transformNil with
    | .panicked => .panicked
    | .returned mod =>
      match PatchCertificateObjectPtr c json s none mod with
      | .panicked => .panicked
      | .returned (r, s1, tr) => .returned (r, s1, CallEvent.transformNil :: tr)

/-- Go `CreateOrPatchCertificate(c, meta, transform)`. The value of
`api.SchemeGroupVersion.String()` is declared in `apis/voyager/v1beta1` and is a
parameter here. `Spec` and `Status` of the fresh object are the zero values
`spec0` and `status0`. `transform` is the caller's function on objects and
`transformNil` what it does on nil, which matters when `Get` answers
`(nil, nil)`. -/
def CreateOrPatchCertificate {σ Spec Status : Type} (c : CertificateClient σ Spec Status)
    (json : JsonOps Spec Status) (schemeGroupVersion : String) (spec0 : Spec)
    (status0 : Status) (s : σ) (om : ObjectMeta)
    (transform : Certificate Spec Status → Certificate Spec Status)
    (transformNil : Run (Option (Certificate Spec Status))) :
    Run ((Option (Certificate Spec Status) × VerbType × Option GoError) × σ ×
      List (CallEvent Spec Status)) :=
  match c.Get s om.Namespace om.Name with
  | ((cur, err), s1) =>
    if IsNotFound err then
      let fresh : Certificate Spec Status :=
        { TypeMeta := { Kind := "Certificate", APIVersion := schemeGroupVersion },
          ObjectMeta := om, Spec := spec0, Status := status0 }
      match c.Create s1 om.Namespace (transform fresh) with
      | ((out, err1), s2) =>
        .returned ((out, VerbType.VerbCreated, err1), s2,
          [CallEvent.get om.Namespace om.Name, CallEvent.transform fresh,
           CallEvent.create om.Namespace (transform fresh)])
    else
      match err with
      | some e =>
        .returned ((none, VerbType.VerbUnchanged, some e), s1,
          [CallEvent.get om.Namespace om.Name])
      | none =>
        match PatchCertificatePtr c json s1 cur transform transformNil with
        | .panicked => .panicked
        | .returned (r, s2, tr) => .returned (r, s2, CallEvent.get om.Namespace om.Name :: tr)

/-- Go `wait.ErrWaitTimeout`. -/
def ErrWaitTimeout : GoError := .ext "timed out waiting for the condition" false

/-- The loop of `wait.PollImmediate`: `calls` is the number of calls of the
condition that interval and timeout still allow. A condition that returns an
error ends the loop with that error, one that returns `true` ends it with `nil`,
and when no call is left the result is `ErrWaitTimeout`. -/
def pollLoop {S : Type} (condition : S → Run ((Bool × Option GoError) × S)) :
    Nat → S → Run (Option GoError × S)
  | 0, st => .returned (some ErrWaitTimeout, st)
  | n + 1, st =>
    match condition st with
    | .panicked => .panicked
    | .returned ((_, some err), st1) => .returned (some err, st1)
    | .returned ((true, none), st1) => .returned (none, st1)
    | .returned ((false, none), st1) => pollLoop condition n st1

/-- Go `wait.PollImmediate(interval, timeout, condition)`: the condition is called
at once and then again until the timeout; `ticks` is the number of further calls
that interval and timeout allow. -/
def PollImmediate {S : Type} (ticks : Nat)
    (condition : S → Run ((Bool × Option GoError) × S)) (st : S) :
    Run (Option GoError × S) :=
  pollLoop condition (ticks + 1) st

/-- The variables the closure in `TryUpdateCertificate` shares with its
enclosing function (`attempt`, `result`), the store and the trace. -/
structure TryState (σ Spec Status : Type) where
  attempt : Nat
  result : Option (Certificate Spec Status)
  store : σ
  trace : List (CallEvent Spec Status)

/-- The closure handed to `wait.PollImmediate` in `TryUpdateCertificate`, lines
65 to 76. `cur.Namespace` is read at line 71 and at line 74, whatever `Get`
returned. -/
def tryUpdateAttempt {σ Spec Status : Type} (c : CertificateClient σ Spec Status)
    (om : ObjectMeta) (transform : Certificate Spec Status → Certificate Spec Status)
    (st : TryState σ Spec Status) : Run ((Bool × Option GoError) × TryState σ Spec Status) :=
  let attempt := st.attempt + 1
  match c.Get st.store om.Namespace om.Name with
  | ((cur, e2), s1) =>
    let tr := st.trace ++ [CallEvent.get om.Namespace om.Name]
    if IsNotFound e2 then
      .returned ((false, e2), { attempt := attempt, result := st.result, store := s1, trace := tr })
    else
      match e2 with
      | none =>
        match cur with
        | none => .panicked
        | some cur =>
          match c.Update s1 cur.ObjectMeta.Namespace (transform cur) with
          | ((result, e3), s2) =>
            .returned ((e3.isNone, none),
              { attempt := attempt, result := result, store := s2,
                trace := tr ++ [CallEvent.transform cur,
                  CallEvent.update cur.ObjectMeta.Namespace (transform cur)] })
      | some e =>
        match cur with
        | none => .panicked
        | some cur =>
          .returned ((false, none),
            { attempt := attempt, result := st.result, store := s1,
              trace := tr ++ [CallEvent.logError ("Attempt " ++ fmtInt attempt ++
                " failed to update Certificate " ++ cur.ObjectMeta.Namespace ++ "/" ++
                cur.ObjectMeta.Name ++ " due to " ++ e.Error ++ ".")] })

/-- Go `TryUpdateCertificate(c, meta, transform)`: the returned pair, the store
afterwards and the calls made. `ticks` stands for `kutil.RetryInterval` and
`kutil.RetryTimeout`. -/
def TryUpdateCertificate {σ Spec Status : Type} (c : CertificateClient σ Spec Status)
    (ticks : Nat) (s : σ) (om : ObjectMeta)
    (transform : Certificate Spec Status → Certificate Spec Status) :
    Run (CertResult Spec Status × σ × List (CallEvent Spec Status)) :=
  match PollImmediate ticks (tryUpdateAttempt c om transform)
      { attempt := 0, result := none, store := s, trace := [] } with
  | .panicked => .panicked
  | .returned (none, st) => .returned ((st.result, none), st.store, st.trace)
  | .returned (some err, st) =>
    .returned ((st.result, some (Errorf ("failed to update Certificate " ++ om.Namespace ++
      "/" ++ om.Name ++ " after " ++ fmtInt st.attempt ++ " attempts due to " ++ err.Error))),
      st.store, st.trace)

/-- The verb `%v` applied to a `[]bool`. -/
def fmtBools (bs : List Bool) : String := "[" ++ " ".intercalate (bs.map fmtBool) ++ "]"

/-- Go `UpateCertificateStatus(c, cur, transform, useSubresource...)`: the returned
pair, the store afterwards and the calls made. -/
def UpateCertificateStatus {σ Spec Status : Type} (c : CertificateClient σ Spec Status)
    (json : JsonOps Spec Status) (s : σ) (cur : Certificate Spec Status)
    (transform : Status → Status) (useSubresource : List Bool) :
    CertResult Spec Status × σ × List (CallEvent Spec Status) :=
  if useSubresource.length > 1 then
    ((none, some (Errorf ("invalid value passed for useSubresource: " ++
      fmtBools useSubresource))), s, [])
  else
    let mod : Certificate Spec Status :=
      { TypeMeta := cur.TypeMeta, ObjectMeta := cur.ObjectMeta, Spec := cur.Spec,
        Status := transform cur.Status }
    if useSubresource.length == 1 && useSubresource.head? == some true then
      match c.UpdateStatus s cur.ObjectMeta.Namespace mod with
      | (r, s1) =>
        (r, s1, [CallEvent.transformStatus cur.Status,
          CallEvent.updateStatus cur.ObjectMeta.Namespace mod])
    else
      match PatchCertificateObject c json s cur mod with
      | ((out, _, err), s1, tr) => ((out, err), s1, CallEvent.transformStatus cur.Status :: tr)

/-! ## Route-to-configuration synthesis (specification, sections 3 and 4.2)

The Go source of the synthesis is not among the files at hand (its callers and
its end-to-end tests are); what follows is written from the specification, and
from the end-to-end tests where they show what section 4.2 leaves open. -/

/-- Modelled from the spec: `backendRef` of section 3 ("service name + service
port"); the Go type is missing. -/
structure BackendRef where
  serviceName : String
  servicePort : Nat
  deriving DecidableEq, Repr

/-- Modelled from the spec: `RouteRule` of section 3; the Go type is missing.
An empty `host` is the wildcard, `port` is the optional explicit bind port. -/
structure RouteRule where
  host : String
  port : Option Nat
  path : String
  backendRef : BackendRef
  noTLS : Bool
  deriving DecidableEq, Repr

/-- Modelled from the spec: `TLSBinding` of section 3; the Go type is missing. -/
structure TLSBinding where
  hosts : List String
  secretRef : String
  deriving DecidableEq, Repr

/-- Modelled from the spec: the values of `lbType` in section 3
("enum{LoadBalancer, NodePort,...}"); the Go constants are missing. The values
the spec does not name are `other`. -/
inductive LBType where
  | LoadBalancer
  | NodePort
  | other (name : String)
  deriving DecidableEq, Repr

/-- Modelled from the spec: `AnnotationSet` of section 3, a mapping of the
recognized keys to typed values; the Go type is missing. A key that is not in the
mapping is `none`. Section 4.2 gives `useNodePort` and `lbType` no part in the
synthesis; `sslRedirect` it does not name either, and the end-to-end tests show
its part in step 4 (see `injectRedirects`). -/
structure AnnotationSet where
  sslPassthrough : Option Bool
  sslRedirect : Option Bool
  forceSSLRedirect : Option Bool
  useNodePort : Option Bool
  lbType : Option LBType
  hstsMaxAge : Option Nat
  hstsPreload : Option Bool
  hstsIncludeSubDomains : Option Bool
  deriving DecidableEq, Repr

/-- Modelled from the spec: `exposureMode` of section 3; the Go type is missing. -/
inductive ExposureMode where
  | ClusterIP
  | NodePort
  | HostNetwork
  deriving DecidableEq, Repr

/-- Modelled from the spec: `Endpoint` of section 3; the Go type is missing. -/
structure Endpoint where
  address : String
  exposureMode : ExposureMode
  deriving DecidableEq, Repr

/-- Modelled from the spec: the frontend modes of section 3; the Go type is
missing. -/
inductive Mode where
  | HTTP
  | HTTPSTerminated
  | TCPPassthrough
  deriving DecidableEq, Repr

/-- Modelled from the spec: the three actions of a path rule (sections 3 and
9); the Go type is missing. -/
inductive Action where
  | Forward (backendRef : BackendRef)
  | Redirect (targetPort code : Nat)
  | Passthrough (backendRef : BackendRef)
  deriving DecidableEq, Repr

/-- Modelled from the spec: `PathRule` of section 3; the Go type is missing. -/
structure PathRule where
  host : String
  path : String
  action : Action
  deriving DecidableEq, Repr

/-- Modelled from the spec: `Frontend` of section 3 with the policy bundle that
section 3 attaches at the frontend; the Go type is missing. `forceRedirect` says
that the frontend redirects at request time a request without the
forwarded-protocol indicator (step 5 and section 8); `hsts` is the header value
of step 6. -/
structure Frontend where
  bindPort : Nat
  mode : Mode
  rules : List PathRule
  forceRedirect : Bool
  hsts : Option String
  deriving DecidableEq, Repr

/-- Modelled from the spec: `Canonical Configuration` of section 3; the Go type
is missing. -/
structure CanonicalConfig where
  frontends : List Frontend
  backends : List (BackendRef × List Endpoint)
  deriving DecidableEq, Repr

/-- Modelled from the spec: the failure modes of section 4.2; the Go errors are
missing. Step 3 asks for TLS termination only for a rule whose host a binding
covers, so nothing below raises `NoTLSBindingForHost`. -/
inductive SynthError where
  | AmbiguousRoute
  | BackendNotFound
  | NoTLSBindingForHost
  deriving DecidableEq, Repr

/-- Modelled from the spec: the input of section 4.2 ("the full RouteRule set
for one ingress resource, its TLSBindings, its AnnotationSet, and resolved
Endpoints per backendRef"); the Go type is missing. `endpoints` answers `none`
for a backend the resolver did not find. -/
structure SynthInput where
  rules : List RouteRule
  tls : List TLSBinding
  annotations : AnnotationSet
  endpoints : BackendRef → Option (List Endpoint)

/-- Modelled from the spec: "its host is covered by a TLSBinding" (section 4.2,
step 1); the Go function is missing. -/
def covered (tls : List TLSBinding) (host : String) : Bool :=
  tls.any (fun b => decide (host ∈ b.hosts))

/-- Modelled from the spec: section 4.2, step 1; the Go function is missing. "A
rule's effective port is: its own port if set; else 443 if its host is covered by
a TLSBinding and noTLS is false; else 80." -/
def effectivePort (tls : List TLSBinding) (r : RouteRule) : Nat :=
  match r.port with
  | some p => p
  | none => if covered tls r.host && !r.noTLS then 443 else 80

/-- Modelled from the spec: the mode of section 4.2, step 3; the Go function is
missing. "HTTPS-terminated if a TLSBinding covers its host and noTLS is false,
else HTTP." -/
def ruleMode (tls : List TLSBinding) (r : RouteRule) : Mode :=
  if covered tls r.host && !r.noTLS then Mode.HTTPSTerminated else Mode.HTTP

/-- Modelled from the spec: section 4.2, step 2; the Go function is missing.
"Exactly one Frontend is produced, bound to port 443, mode TCP-passthrough.
Every PathRule under it becomes a Passthrough(backendRef) action regardless of
path." -/
def passthroughFrontend (rules : List RouteRule) : Frontend :=
  { bindPort := 443, mode := Mode.TCPPassthrough,
    rules := rules.map (fun r => ⟨r.host, r.path, Action.Passthrough r.backendRef⟩),
    forceRedirect := false, hsts := none }

/-- Modelled from the spec: "ensure a Frontend exists for its effective port with
mode ..." and "add a PathRule" (section 4.2, steps 3 and 4); the Go function is
missing. Section 3 allows "at most one Frontend per bindPort", so the frontend is
looked up by its bind port: the rule goes to the frontend bound to this port, and
when there is none a frontend with this port and mode is created at the end of the
sequence. -/
def addRule (fs : List Frontend) (port : Nat) (mode : Mode) (pr : PathRule) : List Frontend :=
  if fs.any (fun f => f.bindPort == port) then
    fs.map (fun f => if f.bindPort == port then { f with rules := f.rules ++ [pr] } else f)
  else
    fs ++ [{ bindPort := port, mode := mode, rules := [pr], forceRedirect := false,
             hsts := none }]

/-- Modelled from the spec: the conflict rule of section 4.2, step 3; the Go
function is missing. "If two explicit rules claim the same (frontendPort, host,
path) with different backendRefs, this is a configuration error." -/
def ambiguous (tls : List TLSBinding) (rules : List RouteRule) : Bool :=
  rules.any (fun r1 => rules.any (fun r2 =>
    effectivePort tls r1 == effectivePort tls r2 && r1.host == r2.host &&
    r1.path == r2.path && r1.backendRef != r2.backendRef))

/-- Modelled from the spec: section 4.2, step 3, for one rule; the Go function is
missing. "Ensure a Frontend exists for its effective port with mode ... Add a
Forward(backendRef) PathRule for (host, path)." -/
def explicitStep (tls : List TLSBinding) (fs : List Frontend) (r : RouteRule) : List Frontend :=
  addRule fs (effectivePort tls r) (ruleMode tls r) ⟨r.host, r.path, Action.Forward r.backendRef⟩

/-- Modelled from the spec: section 4.2, step 3; the Go function is missing.
Every rule, in the order given, adds its `Forward` rule. -/
def explicitFrontends (tls : List TLSBinding) (rules : List RouteRule) : List Frontend :=
  rules.foldl (explicitStep tls) []

/-- Modelled from the spec: the test of section 4.2, step 4, for one rule; the Go
function is missing. The rule is configured at port 443 for a host with a
TLSBinding, and no explicit rule exists at port 80 for its host and path. -/
def needsRedirect (tls : List TLSBinding) (rules : List RouteRule) (r : RouteRule) : Bool :=
  covered tls r.host && effectivePort tls r == 443 &&
  !rules.any (fun r2 => effectivePort tls r2 == 80 && r2.host == r.host && r2.path == r.path)

/-- Modelled from the spec: section 4.2, step 4, for one rule; the Go function is
missing. A host and path that needs it gets one `Redirect(443, 308)` in the
frontend at port 80, which is created in HTTP mode "if absent". -/
def redirectStep (tls : List TLSBinding) (rules : List RouteRule) (fs : List Frontend)
    (r : RouteRule) : List Frontend :=
  if needsRedirect tls rules r &&
      !fs.any (fun f => f.bindPort == 80 &&
        decide ((⟨r.host, r.path, Action.Redirect 443 308⟩ : PathRule) ∈ f.rules)) then
    addRule fs 80 Mode.HTTP ⟨r.host, r.path, Action.Redirect 443 308⟩
  else fs

/-- Modelled from the spec: section 4.2, step 4; the Go function is missing. The
rules are visited in the order given. Section 4.2 does not name `sslRedirect`:
the end-to-end tests that set it to false for a host with a TLS binding
(`ingress_tls.go`, lines 464 and 522) find the exposed service with port 443
alone (lines 504 to 505 and 562 to 563), and those that leave it unset find the
redirect at port 80, so the step is skipped exactly when `sslRedirect` is
false. -/
def injectRedirects (a : AnnotationSet) (tls : List TLSBinding) (rules : List RouteRule)
    (fs : List Frontend) : List Frontend :=
  if a.sslRedirect = some false then fs else rules.foldl (redirectStep tls rules) fs

/-- Modelled from the spec: section 4.2, step 5; the Go function is missing. "If
forceSSLRedirect is true, every HTTP-mode Frontend gains a redirect PathRule for
all unmatched paths to the https equivalent port": the rule has the wildcard host
and the empty path, which is a prefix of every path, and redirects to port 443
with the code 308 of section 8. The rule is "evaluated at request time by
inspecting a forwarded-protocol indicator", which `forceRedirect` records: by
section 8 "a request lacking the indicator is redirected", and the test "Force
SSL Redirect" (`ingress_tls.go`, lines 590 to 594) finds that for a configured
path. -/
def applyForceRedirect (a : AnnotationSet) (fs : List Frontend) : List Frontend :=
  if a.forceSSLRedirect = some true then
    fs.map (fun f =>
      if f.mode = Mode.HTTP then
        { f with rules := f.rules ++ [⟨"", "", Action.Redirect 443 308⟩],
                 forceRedirect := true }
      else f)
  else fs

/-- Modelled from the spec: "if any HSTS annotation is present" (section 4.2,
step 6); the Go function is missing. -/
def hstsPresent (a : AnnotationSet) : Bool :=
  a.hstsMaxAge.isSome || a.hstsPreload.isSome || a.hstsIncludeSubDomains.isSome

/-- Modelled from the spec: the header value of section 4.2, step 6, with the
default of section 3 and the order of the example in section 8; the Go function
is missing. -/
def hstsHeader (a : AnnotationSet) : String :=
  "max-age=" ++ fmtInt (a.hstsMaxAge.getD 15768000) ++
  (if a.hstsPreload = some true then "; preload" else "") ++
  (if a.hstsIncludeSubDomains = some true then "; includeSubDomains" else "")

/-- Modelled from the spec: section 4.2, step 6; the Go function is missing. "If
any HSTS annotation is present, attach a header-injection policy to every
HTTPS-terminated Frontend." -/
def attachHSTS (a : AnnotationSet) (fs : List Frontend) : List Frontend :=
  if hstsPresent a then
    fs.map (fun f =>
      if f.mode = Mode.HTTPSTerminated then { f with hsts := some (hstsHeader a) } else f)
  else fs

/-- Modelled from the spec: section 4.2, step 7; the Go function is missing.
"Within each Frontend, order PathRules by descending path length, then by
insertion order." -/
def orderRules (fs : List Frontend) : List Frontend :=
  fs.map (fun f =>
    { f with rules := f.rules.insertionSort (fun a b => b.path.length ≤ a.path.length) })

/-- Modelled from the spec: the `Backends` mapping of section 3 with the failure
`BackendNotFound` of section 4.2; the Go function is missing. Every backend a
rule refers to is looked up, once. -/
def resolveBackends (endpoints : BackendRef → Option (List Endpoint)) :
    List BackendRef → Except SynthError (List (BackendRef × List Endpoint))
  | [] => .ok []
  | b :: bs =>
    match endpoints b with
    | none => .error SynthError.BackendNotFound
    | some eps =>
      match resolveBackends endpoints bs with
      | .error e => .error e
      | .ok rest => .ok ((b, eps) :: rest)

/-- Modelled from the spec: the Canonicalizer of section 4.2, steps 1 to 7 in
order; the Go function is missing. With `sslPassthrough` true "all other
synthesis steps are skipped"; a failure yields no configuration at all. -/
def synthesize (inp : SynthInput) : Except SynthError CanonicalConfig :=
  match resolveBackends inp.endpoints (inp.rules.map (fun r => r.backendRef)).dedup with
  | .error e => .error e
  | .ok backends =>
    if inp.annotations.sslPassthrough = some true then
      .ok { frontends := [passthroughFrontend inp.rules], backends := backends }
    else if ambiguous inp.tls inp.rules then
      .error SynthError.AmbiguousRoute
    else
      .ok { frontends := orderRules (attachHSTS inp.annotations
              (applyForceRedirect inp.annotations
                (injectRedirects inp.annotations inp.tls inp.rules
                  (explicitFrontends inp.tls inp.rules)))),
            backends := backends }

/-- The ports a configuration binds, each once: the ports of the exposed service. -/
def exposedPorts (cfg : CanonicalConfig) : List Nat :=
  (cfg.frontends.map (fun f => f.bindPort)).dedup

/-- The bind ports of a sequence of frontends, in order. -/
def bindPorts (fs : List Frontend) : List Nat :=
  fs.map (fun f => f.bindPort)

/-- The frontend `f` is the frontend of `fs` at `port`: it is in `fs`, bound to
`port`, and no other frontend of `fs` is bound to `port`. -/
def IsFrontendAt (fs : List Frontend) (port : Nat) (f : Frontend) : Prop :=
  f ∈ fs ∧ f.bindPort = port ∧ ∀ g ∈ fs, g.bindPort = port → g = f

/-- Some frontend of `fs` with this bind port holds the path rule. -/
def HasRule (fs : List Frontend) (port : Nat) (pr : PathRule) : Prop :=
  ∃ f ∈ fs, f.bindPort = port ∧ pr ∈ f.rules

/-- Every frontend of `fs` satisfies `Q`. -/
def AllFrontends (fs : List Frontend) (Q : Frontend → Prop) : Prop :=
  ∀ f ∈ fs, Q f

/-- What steps 5 to 7 keep of a frontend `f` in its image `k`: the bind port, the
mode and every rule; and, unless `forceSSLRedirect` is true, the redirect at
request time, with no rule added. -/
def Keeps (a : AnnotationSet) (f k : Frontend) : Prop :=
  k.bindPort = f.bindPort ∧ k.mode = f.mode ∧ (∀ x ∈ f.rules, x ∈ k.rules) ∧
  (a.forceSSLRedirect ≠ some true →
    k.forceRedirect = f.forceRedirect ∧ ∀ x ∈ k.rules, x ∈ f.rules)

/-- Whether an event is a `Get` request: every attempt of `TryUpdateCertificate`
makes exactly one. -/
def CallEvent.isGet {Spec Status : Type} : CallEvent Spec Status → Bool
  | .get _ _ => true
  | _ => false

/-- The number of `Get` requests in a trace. -/
def countGets {Spec Status : Type} (tr : List (CallEvent Spec Status)) : Nat :=
  tr.countP CallEvent.isGet

/-! ## Concrete collaborators and inputs used to instantiate the theorems -/

/-- An error of the validator. -/
def exInvalid : GoError := .ext "backend missing" false

/-- An error of the template engine. -/
def exExecFailed : GoError := .ext "template: haproxy.cfg:3: nil pointer evaluating" false

/-- Template operations over numbered data: number 0 is invalid, number 1 fails
in the middle of execution, every other number renders three lines. -/
def exTemplateOps : TemplateOps Unit Nat where
  Canonicalize := fun d => d
  IsValid := fun d => if d = 0 then some exInvalid else none
  ExecuteTemplate := fun _ _ d =>
    if d = 1 then ("global\n  daemon", some exExecFailed) else ("global\n\n  daemon\n", none)

/-- An error of the file system. -/
def exWriteFailed : GoError := .ext "open /tmp/config.cfg: permission denied" false

/-- An error of a finished process. -/
def exExitStatus : GoError := .ext "exit status 1" false

/-- A host whose state is the content of the one file: writing the empty text
fails, and the checker rejects every file that does not begin with `g`. -/
def exHost : HostOps String where
  WriteFile := fun s _ data _ => if data = "" then (some exWriteFailed, s) else (none, data)
  CombinedOutput := fun s _ _ =>
    if s.front = 'g' then (("Configuration file is valid\n", none), s)
    else (("[ALERT] parsing [/tmp/config.cfg:1] : unknown keyword\n", some exExitStatus), s)

/-- A certificate with texts for `Spec` and `Status`. -/
def exCert : Certificate String String where
  TypeMeta := { Kind := "Certificate", APIVersion := "voyager.appscode.com/v1beta1" }
  ObjectMeta := { Name := "web", Namespace := "demo", ResourceVersion := "7", Labels := [],
                  Annotations := [] }
  Spec := "example.com"
  Status := "pending"

/-- An error of the API server that is not `NotFound`. -/
def exServerTimeout : GoError := .ext "etcdserver: request timed out" false

/-- An update conflict reported by the API server. -/
def exConflict : GoError := .ext "the object has been modified" false

/-- A store that counts its requests: `Get` finds `exCert`, the first two
requests of any kind that change the store are refused with a conflict, later
ones succeed and answer with the object sent. -/
def exClient : CertificateClient Nat String String where
  Get := fun s _ _ => ((some exCert, none), s + 1)
  Create := fun s _ obj => ((some obj, none), s + 1)
  Update := fun s _ obj =>
    if s < 4 then ((none, some exConflict), s + 1) else ((some obj, none), s + 1)
  UpdateStatus := fun s _ obj => ((some obj, none), s + 1)
  Patch := fun s _ _ _ data =>
    ((some { exCert with Status := data }, none), s + 1)

/-- A client in the manner of the generated fake clientset: a failed `Get`
answers with a nil object and the error. -/
def exNilOnErrorClient : CertificateClient Nat String String where
  Get := fun s _ _ => ((none, some exServerTimeout), s + 1)
  Create := fun s _ obj => ((some obj, none), s + 1)
  Update := fun s _ obj => ((some obj, none), s + 1)
  UpdateStatus := fun s _ obj => ((some obj, none), s + 1)
  Patch := fun s _ _ _ _ => ((some exCert, none), s + 1)

/-- A stand-in for the JSON library: the encoding lists name, spec and status,
and the merge patch of two encodings is the empty object when they are equal and
the new encoding in braces otherwise. -/
def exJson : JsonOps String String where
  Marshal := fun c => (c.ObjectMeta.Name ++ ":" ++ c.Spec ++ ":" ++ c.Status, none)
  CreateMergePatch := fun a b =>
    if a = b then ("\x7b\x7d", none) else ("\x7b" ++ b ++ "\x7d", none)

/-- The backend of the end-to-end tests: the test server at port 80. -/
def exBackend : BackendRef := ⟨"test-server", 80⟩

/-- A resolver that finds one endpoint for every backend. -/
def exEndpoints : BackendRef → Option (List Endpoint) :=
  fun _ => some [⟨"10.1.0.4:8080", ExposureMode.ClusterIP⟩]

/-- An annotation set with no key. -/
def exNoAnnotations : AnnotationSet := ⟨none, none, none, none, none, none, none, none⟩

/-- The TLS binding of the end-to-end tests. -/
def exTLS : List TLSBinding := [⟨["http.appscode.test"], "tls-secret"⟩]

/-- The ingress of "Inject new redirect path": `/alternate` at port 80 with
`noTLS`, `/testpath` at port 443. -/
def exInjectInput : SynthInput where
  rules := [⟨"http.appscode.test", some 80, "/alternate", exBackend, true⟩,
            ⟨"http.appscode.test", some 443, "/testpath", exBackend, false⟩]
  tls := exTLS
  annotations := exNoAnnotations
  endpoints := exEndpoints

/-- The ingress of "No redirect for existing path": `/testpath` at port 80 with
`noTLS` and at port 443. -/
def exExistingInput : SynthInput where
  rules := [⟨"http.appscode.test", some 80, "/testpath", exBackend, true⟩,
            ⟨"http.appscode.test", some 443, "/testpath", exBackend, false⟩]
  tls := exTLS
  annotations := exNoAnnotations
  endpoints := exEndpoints

/-- One rule at port 443 for a host with a TLS binding, with `sslPassthrough`. -/
def exPassthroughInput : SynthInput where
  rules := [⟨"http.appscode.test", some 443, "/testpath", exBackend, false⟩]
  tls := exTLS
  annotations := { exNoAnnotations with sslPassthrough := some true }
  endpoints := exEndpoints

/-- What the synthesis makes of `exPassthroughInput`. -/
def exPassthroughConfig : CanonicalConfig where
  frontends := [⟨443, Mode.TCPPassthrough,
    [⟨"http.appscode.test", "/testpath", Action.Passthrough exBackend⟩], false, none⟩]
  backends := [(exBackend, [⟨"10.1.0.4:8080", ExposureMode.ClusterIP⟩])]

/-- The rules of `exExistingInput` with `sslPassthrough`. -/
def exPassthroughExistingInput : SynthInput where
  rules := exExistingInput.rules
  tls := exTLS
  annotations := { exNoAnnotations with sslPassthrough := some true }
  endpoints := exEndpoints

/-- What the synthesis makes of `exPassthroughExistingInput`. -/
def exPassthroughExistingConfig : CanonicalConfig where
  frontends := [⟨443, Mode.TCPPassthrough,
    [⟨"http.appscode.test", "/testpath", Action.Passthrough exBackend⟩,
     ⟨"http.appscode.test", "/testpath", Action.Passthrough exBackend⟩], false, none⟩]
  backends := [(exBackend, [⟨"10.1.0.4:8080", ExposureMode.ClusterIP⟩])]

/-- The ingress of "With HSTS Max Age Specified". -/
def exHstsMaxAgeInput : SynthInput where
  rules := [⟨"http.appscode.test", none, "/testpath", exBackend, false⟩]
  tls := exTLS
  annotations := { exNoAnnotations with hstsMaxAge := some 100, sslRedirect := some false }
  endpoints := exEndpoints

/-- The ingress of "With HSTS Preload and Subdomains". -/
def exHstsPreloadInput : SynthInput where
  rules := [⟨"http.appscode.test", none, "/testpath", exBackend, false⟩]
  tls := exTLS
  annotations := { exNoAnnotations with hstsPreload := some true,
                                        hstsIncludeSubDomains := some true,
                                        sslRedirect := some false }
  endpoints := exEndpoints

/-- The TLS frontend of the two HSTS ingresses, with a header value. -/
def exHstsFrontend (value : String) : Frontend :=
  ⟨443, Mode.HTTPSTerminated,
    [⟨"http.appscode.test", "/testpath", Action.Forward exBackend⟩], false, some value⟩

/-- What the synthesis makes of the two HSTS ingresses, with a header value: with
`sslRedirect` false, the frontend at port 443 alone. -/
def exHstsConfig (value : String) : CanonicalConfig where
  frontends := [exHstsFrontend value]
  backends := [(exBackend, [⟨"10.1.0.4:8080", ExposureMode.ClusterIP⟩])]

/-- The ingress of "Inject new redirect path" without `noTLS` on the rule at port
80: `/alternate` at port 80 and `/testpath` at port 443, both with TLS. -/
def exTLSAtPort80Input : SynthInput where
  rules := [⟨"http.appscode.test", some 80, "/alternate", exBackend, false⟩,
            ⟨"http.appscode.test", some 443, "/testpath", exBackend, false⟩]
  tls := exTLS
  annotations := exNoAnnotations
  endpoints := exEndpoints

/-- What the synthesis makes of `exTLSAtPort80Input`: the frontend at port 80 is
the HTTPS-terminated one of the rule for `/alternate`. -/
def exTLSAtPort80Config : CanonicalConfig where
  frontends := [⟨80, Mode.HTTPSTerminated,
      [⟨"http.appscode.test", "/alternate", Action.Forward exBackend⟩,
       ⟨"http.appscode.test", "/testpath", Action.Redirect 443 308⟩], false, none⟩,
    ⟨443, Mode.HTTPSTerminated,
      [⟨"http.appscode.test", "/testpath", Action.Forward exBackend⟩], false, none⟩]
  backends := [(exBackend, [⟨"10.1.0.4:8080", ExposureMode.ClusterIP⟩])]

/-- The rules of `exExistingInput` with `forceSSLRedirect`. -/
def exForceExistingInput : SynthInput where
  rules := exExistingInput.rules
  tls := exTLS
  annotations := { exNoAnnotations with forceSSLRedirect := some true }
  endpoints := exEndpoints

/-- What the synthesis makes of `exForceExistingInput`. -/
def exForceExistingConfig : CanonicalConfig where
  frontends := [⟨80, Mode.HTTP,
      [⟨"http.appscode.test", "/testpath", Action.Forward exBackend⟩,
       ⟨"", "", Action.Redirect 443 308⟩], true, none⟩,
    ⟨443, Mode.HTTPSTerminated,
      [⟨"http.appscode.test", "/testpath", Action.Forward exBackend⟩], false, none⟩]
  backends := [(exBackend, [⟨"10.1.0.4:8080", ExposureMode.ClusterIP⟩])]

/-- A client that breaks the convention of Go: `Get` answers with no object and
no error. -/
def exNilNilClient : CertificateClient Nat String String where
  Get := fun s _ _ => ((none, none), s + 1)
  Create := fun s _ obj => ((some obj, none), s + 1)
  Update := fun s _ obj => ((some obj, none), s + 1)
  UpdateStatus := fun s _ obj => ((some obj, none), s + 1)
  Patch := fun s _ _ _ _ => ((some exCert, none), s + 1)

/-- The answer of the API server for an object that does not exist. -/
def exNotFound : GoError := .ext "certificates.voyager.appscode.com web not found" true

/-- A store without the certificate: `Get` answers `NotFound`, `Create` answers
with the object sent. -/
def exEmptyClient : CertificateClient Nat String String where
  Get := fun s _ _ => ((none, some exNotFound), s + 1)
  Create := fun s _ obj => ((some obj, none), s + 1)
  Update := fun s _ obj => ((some obj, none), s + 1)
  UpdateStatus := fun s _ obj => ((some obj, none), s + 1)
  Patch := fun s _ _ _ _ => ((some exCert, none), s + 1)

/-- Go `strings.Join` on code points: the pieces with the separator between
consecutive ones. -/
def strings.joinChars (sep : List Char) : List (List Char) → List Char
  | [] => []
  | [a] => a
  | a :: b :: rest => a ++ sep ++ strings.joinChars sep (b :: rest)

/-- The test of line 29 of `renderer.go`: the line is not blank. -/
def notBlank (line : String) : Bool := strings.TrimSpace line != ""

/-- Template operations that render the text they are given as data. -/
def exEchoOps : TemplateOps Unit String where
  Canonicalize := fun d => d
  IsValid := fun _ => none
  ExecuteTemplate := fun _ _ d => (d, none)

/-! ## Theorems: the renderer -/

/-- The three ways through `RenderConfig`: the validator rejects the data. -/
theorem RenderConfig_of_invalid {T D : Type} (ops : TemplateOps T D) (tpl : T) (d : D)
    (w : List (RenderEvent D)) (e : GoError)
    (hv : ops.IsValid (ops.Canonicalize d) = some e) :
    RenderConfig ops tpl d w = (("", some e), w) := by
  simp [RenderConfig, hv]

/-- The three ways through `RenderConfig`: the template fails. -/
theorem RenderConfig_of_exec_error {T D : Type} (ops : TemplateOps T D) (tpl : T) (d : D)
    (w : List (RenderEvent D)) (buf : String) (e : GoError)
    (hv : ops.IsValid (ops.Canonicalize d) = none)
    (hx : ops.ExecuteTemplate tpl "haproxy.cfg" (ops.Canonicalize d) = (buf, some e)) :
    RenderConfig ops tpl d w = (("", some e),
      w ++ [RenderEvent.executeTemplate "haproxy.cfg" (ops.Canonicalize d),
        RenderEvent.logError e]) := by
  simp [RenderConfig, hv, hx]

/-- The three ways through `RenderConfig`: the template succeeds. -/
theorem RenderConfig_of_exec_ok {T D : Type} (ops : TemplateOps T D) (tpl : T) (d : D)
    (w : List (RenderEvent D)) (buf : String)
    (hv : ops.IsValid (ops.Canonicalize d) = none)
    (hx : ops.ExecuteTemplate tpl "haproxy.cfg" (ops.Canonicalize d) = (buf, none)) :
    RenderConfig ops tpl d w = ((dropBlankLines buf, none),
      w ++ [RenderEvent.executeTemplate "haproxy.cfg" (ops.Canonicalize d)]) := by
  simp [RenderConfig, hv, hx]

/-- C2: `RenderConfig` never returns a half-made configuration. If `IsValid`
reports an error on the canonicalized data, the call returns the empty text with
that error and the template is not executed (the trace is unchanged); if the
execution of the template fails, the call returns the empty text with that error,
whatever was written to the buffer; so every result is the empty text with an
error or a text with no error, and an error never comes with text. -/
theorem RenderConfig_no_partial_output {T D : Type} (ops : TemplateOps T D) (tpl : T) (d : D)
    (w : List (RenderEvent D)) :
    (∀ e, ops.IsValid (ops.Canonicalize d) = some e →
      RenderConfig ops tpl d w = (("", some e), w)) ∧
    (∀ buf e, ops.IsValid (ops.Canonicalize d) = none →
      ops.ExecuteTemplate tpl "haproxy.cfg" (ops.Canonicalize d) = (buf, some e) →
      (RenderConfig ops tpl d w).1 = ("", some e)) ∧
    ((∃ e, (RenderConfig ops tpl d w).1 = ("", some e)) ∨
      (∃ text, (RenderConfig ops tpl d w).1 = (text, none))) ∧
    (∀ e, (RenderConfig ops tpl d w).1.2 = some e → (RenderConfig ops tpl d w).1.1 = "") := by
  refine ⟨fun e he => RenderConfig_of_invalid ops tpl d w e he, ?_, ?_, ?_⟩
  · intro buf e hv hx
    rw [RenderConfig_of_exec_error ops tpl d w buf e hv hx]
  · cases hv : ops.IsValid (ops.Canonicalize d) with
    | some e => exact Or.inl ⟨e, by rw [RenderConfig_of_invalid ops tpl d w e hv]⟩
    | none =>
      rcases hx : ops.ExecuteTemplate tpl "haproxy.cfg" (ops.Canonicalize d) with ⟨buf, _ | e⟩
      · exact Or.inr ⟨dropBlankLines buf, by rw [RenderConfig_of_exec_ok ops tpl d w buf hv hx]⟩
      · exact Or.inl ⟨e, by rw [RenderConfig_of_exec_error ops tpl d w buf e hv hx]⟩
  · cases hv : ops.IsValid (ops.Canonicalize d) with
    | some e => rw [RenderConfig_of_invalid ops tpl d w e hv]; intro _ _; rfl
    | none =>
      rcases hx : ops.ExecuteTemplate tpl "haproxy.cfg" (ops.Canonicalize d) with ⟨buf, _ | e⟩
      · rw [RenderConfig_of_exec_ok ops tpl d w buf hv hx]; intro e he; simp at he
      · rw [RenderConfig_of_exec_error ops tpl d w buf e hv hx]; intro _ _; rfl

/-- Witness of C2: data the validator rejects gives the empty text, the
validator's error and an untouched trace; data on which the template fails after
writing two lines gives the empty text and the template's error. -/
theorem RenderConfig_no_partial_output_witness :
    RenderConfig exTemplateOps () 0 [] = (("", some exInvalid), []) ∧
    (RenderConfig exTemplateOps () 1 []).1 = ("", some exExecFailed) :=
  ⟨(RenderConfig_no_partial_output exTemplateOps () 0 []).1 exInvalid (by decide),
   (RenderConfig_no_partial_output exTemplateOps () 1 []).2.1 "global\n  daemon" exExecFailed
     (by decide) (by decide)⟩

/-- C7: `CheckRenderedConfig` hands on the checker's diagnostic unchanged. If the
file is written and the checker fails with error `e` and combined output `o`, the
returned error has exactly the message
"invalid haproxy configuration, reason: " + e + ", message: " + o; if writing
fails, the write error itself is returned and the checker is not run (the only
call made is the write); and the result is `nil` exactly when the write and the
checker both succeed. -/
theorem CheckRenderedConfig_reports {σ : Type} (host : HostOps σ) (s : σ) (cfg : String) :
    (∀ s1 o e s2, host.WriteFile s "/tmp/config.cfg" cfg 0o777 = (none, s1) →
      host.CombinedOutput s1 "haproxy" ["-c", "-f", "/tmp/config.cfg"] = ((o, some e), s2) →
      ∃ err, (CheckRenderedConfig host s cfg).1 = some err ∧
        err.Error = "invalid haproxy configuration, reason: " ++ e.Error ++ ", message: " ++ o) ∧
    (∀ e s1, host.WriteFile s "/tmp/config.cfg" cfg 0o777 = (some e, s1) →
      (CheckRenderedConfig host s cfg).1 = some e ∧
      (CheckRenderedConfig host s cfg).2.2 =
        [HostEvent.writeFile "/tmp/config.cfg" cfg 0o777]) ∧
    ((CheckRenderedConfig host s cfg).1 = none ↔
      (host.WriteFile s "/tmp/config.cfg" cfg 0o777).1 = none ∧
      (host.CombinedOutput (host.WriteFile s "/tmp/config.cfg" cfg 0o777).2 "haproxy"
        ["-c", "-f", "/tmp/config.cfg"]).1.2 = none) := by
  refine ⟨?_, ?_, ?_⟩
  · intro s1 o e s2 hw hc
    refine ⟨Errorf ("invalid haproxy configuration, reason: " ++ e.Error ++ ", message: " ++ o),
      ?_, rfl⟩
    simp [CheckRenderedConfig, hw, hc]
  · intro e s1 hw
    simp [CheckRenderedConfig, hw]
  · unfold CheckRenderedConfig
    rcases hw : host.WriteFile s "/tmp/config.cfg" cfg 0o777 with ⟨_ | e, s1⟩
    · rcases hc : host.CombinedOutput s1 "haproxy" ["-c", "-f", "/tmp/config.cfg"] with
        ⟨⟨o, _ | e⟩, s2⟩ <;> simp [hc]
    · simp

/-- Witness of C7: a rejected file gives the message with the checker's output in
full, and a failed write gives the write error with no checker run. -/
theorem CheckRenderedConfig_reports_witness :
    (∃ err, (CheckRenderedConfig exHost "" "frontend x").1 = some err ∧
      err.Error = "invalid haproxy configuration, reason: " ++ exExitStatus.Error ++
        ", message: " ++ "[ALERT] parsing [/tmp/config.cfg:1] : unknown keyword\n") ∧
    ((CheckRenderedConfig exHost "" "").1 = some exWriteFailed ∧
      (CheckRenderedConfig exHost "" "").2.2 =
        [HostEvent.writeFile "/tmp/config.cfg" "" 0o777]) :=
  ⟨(CheckRenderedConfig_reports exHost "" "frontend x").1 "frontend x"
      "[ALERT] parsing [/tmp/config.cfg:1] : unknown keyword\n" exExitStatus "frontend x"
      (by decide) (by decide),
   (CheckRenderedConfig_reports exHost "" "").2.1 exWriteFailed "" (by decide)⟩

/-! ## Theorems: the certificate helpers -/

/-- An empty merge patch: `PatchCertificateObject` answers with `cur` and sends
nothing. -/
theorem PatchCertificateObject_of_empty_patch {σ Spec Status : Type}
    (c : CertificateClient σ Spec Status) (json : JsonOps Spec Status) (s : σ)
    (cur m : Certificate Spec Status) (cj mj p : String)
    (h1 : json.Marshal cur = (cj, none)) (h2 : json.Marshal m = (mj, none))
    (h3 : json.CreateMergePatch cj mj = (p, none))
    (h4 : p.length = 0 ∨ p = "\x7b\x7d") :
    PatchCertificateObject c json s cur m =
      ((some cur, VerbType.VerbUnchanged, none), s, []) := by
  have h4b : (p.length == 0 || p == "\x7b\x7d") = true := by
    rcases h4 with h | h <;> simp [h]
  simp only [PatchCertificateObject, h1, h2, h3, h4b, if_true]

/-- C8: `PatchCertificateObject` sends a patch request exactly when the merge
patch from `cur` to `mod` is not empty. When the two JSON encodings yield an
empty patch (no bytes, or the empty object) it returns `cur` with
`VerbUnchanged` and no error and makes no call; when they yield any other patch
it makes exactly one merge-patch request for the namespace and name of `cur`
with that patch and returns the store's object and error with `VerbPatched`; a
store call happens only in that second case; and when `mod` is `cur` (as in
`PatchCertificate` with the identity transform), given that the library makes an
empty patch from two equal documents, the answer is `cur` unchanged with no
store call. -/
theorem PatchCertificateObject_patches_iff_nonempty {σ Spec Status : Type}
    (c : CertificateClient σ Spec Status) (json : JsonOps Spec Status) (s : σ)
    (cur mod : Certificate Spec Status) :
    (∀ cj mj p, json.Marshal cur = (cj, none) → json.Marshal mod = (mj, none) →
      json.CreateMergePatch cj mj = (p, none) → (p.length = 0 ∨ p = "\x7b\x7d") →
      PatchCertificateObject c json s cur mod =
        ((some cur, VerbType.VerbUnchanged, none), s, [])) ∧
    (∀ cj mj p, json.Marshal cur = (cj, none) → json.Marshal mod = (mj, none) →
      json.CreateMergePatch cj mj = (p, none) → ¬ (p.length = 0 ∨ p = "\x7b\x7d") →
      PatchCertificateObject c json s cur mod =
        (((c.Patch s cur.ObjectMeta.Namespace cur.ObjectMeta.Name
            PatchType.MergePatchType p).1.1, VerbType.VerbPatched,
          (c.Patch s cur.ObjectMeta.Namespace cur.ObjectMeta.Name
            PatchType.MergePatchType p).1.2),
         (c.Patch s cur.ObjectMeta.Namespace cur.ObjectMeta.Name
            PatchType.MergePatchType p).2,
         [CallEvent.patch cur.ObjectMeta.Namespace cur.ObjectMeta.Name
            PatchType.MergePatchType p])) ∧
    ((∃ ev ∈ (PatchCertificateObject c json s cur mod).2.2, ev.isStoreCall = true) ↔
      ∃ cj mj p, json.Marshal cur = (cj, none) ∧ json.Marshal mod = (mj, none) ∧
        json.CreateMergePatch cj mj = (p, none) ∧ ¬ (p.length = 0 ∨ p = "\x7b\x7d")) ∧
    ((json.Marshal cur).2 = none →
      (json.CreateMergePatch (json.Marshal cur).1 (json.Marshal cur).1).2 = none →
      ((json.CreateMergePatch (json.Marshal cur).1 (json.Marshal cur).1).1.length = 0 ∨
        (json.CreateMergePatch (json.Marshal cur).1 (json.Marshal cur).1).1 = "\x7b\x7d") →
      PatchCertificateObject c json s cur cur =
        ((some cur, VerbType.VerbUnchanged, none), s, []) ∧
      PatchCertificate c json s cur (fun x => x) =
        ((some cur, VerbType.VerbUnchanged, none), s, [CallEvent.transform cur])) := by
  refine ⟨fun cj mj p h1 h2 h3 h4 =>
    PatchCertificateObject_of_empty_patch c json s cur mod cj mj p h1 h2 h3 h4, ?_, ?_, ?_⟩
  · intro cj mj p h1 h2 h3 h4
    have h4b : (p.length == 0 || p == "\x7b\x7d") = false := by
      rw [Bool.eq_false_iff]
      intro h
      apply h4
      simpa using h
    simp only [PatchCertificateObject, h1, h2, h3, h4b]
    rfl
  · rcases h1 : json.Marshal cur with ⟨cj, _ | e1⟩
    · rcases h2 : json.Marshal mod with ⟨mj, _ | e2⟩
      · rcases h3 : json.CreateMergePatch cj mj with ⟨p, _ | e3⟩
        · by_cases h4 : (p.length == 0 || p == "\x7b\x7d") = true
          · simp only [PatchCertificateObject, h1, h2, h3, h4, if_true]
            constructor
            · rintro ⟨ev, hev, _⟩
              simp at hev
            · rintro ⟨cj1, mj1, p1, e1, e2, e3, hne⟩
              simp only [Prod.mk.injEq, and_true] at e1 e2
              subst e1 e2
              rw [h3] at e3
              simp only [Prod.mk.injEq, and_true] at e3
              subst e3
              exact absurd (by simpa using h4) hne
          · have h4b : (p.length == 0 || p == "\x7b\x7d") = false := by
              simpa using h4
            simp only [PatchCertificateObject, h1, h2, h3, h4b]
            constructor
            · intro _
              exact ⟨cj, mj, p, rfl, rfl, h3, by simpa using h4⟩
            · intro _
              exact ⟨_, List.mem_singleton.mpr rfl, rfl⟩
        · simp only [PatchCertificateObject, h1, h2, h3]
          constructor
          · rintro ⟨ev, hev, _⟩
            simp at hev
          · rintro ⟨cj1, mj1, p1, e1, e2, e3, _⟩
            simp only [Prod.mk.injEq, and_true] at e1 e2
            subst e1 e2
            rw [h3] at e3
            simp at e3
      · simp only [PatchCertificateObject, h1, h2]
        constructor
        · rintro ⟨ev, hev, _⟩
          simp at hev
        · rintro ⟨cj1, mj1, p1, _, e2, _, _⟩
          simp at e2
    · simp only [PatchCertificateObject, h1]
      constructor
      · rintro ⟨ev, hev, _⟩
        simp at hev
      · rintro ⟨cj1, mj1, p1, e1, _, _, _⟩
        simp at e1
  · intro hm hp hpe
    have h1 : json.Marshal cur = ((json.Marshal cur).1, none) := by
      rw [← hm]
    have h3 : json.CreateMergePatch (json.Marshal cur).1 (json.Marshal cur).1 =
        ((json.CreateMergePatch (json.Marshal cur).1 (json.Marshal cur).1).1, none) := by
      rw [← hp]
    have hcc := PatchCertificateObject_of_empty_patch c json s cur cur _ _ _ h1 h1 h3 hpe
    refine ⟨hcc, ?_⟩
    simp only [PatchCertificate, hcc]

/-- Witness of C8: with `exCert` and a copy whose status is "issued" the patch is
not empty and one patch request is made; with `exCert` itself nothing is sent. -/
theorem PatchCertificateObject_patches_iff_nonempty_witness :
    PatchCertificateObject exClient exJson 0 exCert { exCert with Status := "issued" } =
      ((some { exCert with Status := "\x7bweb:example.com:issued\x7d" },
        VerbType.VerbPatched, none), 1,
       [CallEvent.patch "demo" "web" PatchType.MergePatchType
          "\x7bweb:example.com:issued\x7d"]) ∧
    (PatchCertificateObject exClient exJson 0 exCert exCert =
        ((some exCert, VerbType.VerbUnchanged, none), 0, []) ∧
      PatchCertificate exClient exJson 0 exCert (fun x => x) =
        ((some exCert, VerbType.VerbUnchanged, none), 0, [CallEvent.transform exCert])) :=
  ⟨(PatchCertificateObject_patches_iff_nonempty exClient exJson 0 exCert
      { exCert with Status := "issued" }).2.1 "web:example.com:pending"
      "web:example.com:issued" "\x7bweb:example.com:issued\x7d" (by decide) (by decide)
      (by decide) (by decide),
   (PatchCertificateObject_patches_iff_nonempty exClient exJson 0 exCert exCert).2.2.2
      (by decide) (by decide) (by decide)⟩

/-- C10: `UpateCertificateStatus` changes the status only. The object `mod` it
builds has the `TypeMeta`, `ObjectMeta` and `Spec` of `cur` and the status
`transform` makes of the status of `cur`; with `useSubresource` equal to `[true]`
exactly that object goes to `UpdateStatus`, and with no value or `[false]` it
goes, with `cur`, to `PatchCertificateObject`; on the patch path a transform that
leaves the status as it is gives back `cur` with no store request (given that
the library makes an empty patch from two equal documents); and more than one
value of `useSubresource` gives `(nil, error)` with no call of `transform` or of
the store. -/
theorem UpateCertificateStatus_status_only {σ Spec Status : Type}
    (c : CertificateClient σ Spec Status) (json : JsonOps Spec Status) (s : σ)
    (cur : Certificate Spec Status) (transform : Status → Status) :
    (∀ us : List Bool, 1 < us.length →
      ∃ err, UpateCertificateStatus c json s cur transform us = ((none, some err), s, [])) ∧
    (∃ mod : Certificate Spec Status,
      mod.TypeMeta = cur.TypeMeta ∧ mod.ObjectMeta = cur.ObjectMeta ∧ mod.Spec = cur.Spec ∧
      mod.Status = transform cur.Status ∧
      UpateCertificateStatus c json s cur transform [true] =
        ((c.UpdateStatus s cur.ObjectMeta.Namespace mod).1,
         (c.UpdateStatus s cur.ObjectMeta.Namespace mod).2,
         [CallEvent.transformStatus cur.Status,
          CallEvent.updateStatus cur.ObjectMeta.Namespace mod]) ∧
      ∀ us : List Bool, us = [] ∨ us = [false] →
        UpateCertificateStatus c json s cur transform us =
          (((PatchCertificateObject c json s cur mod).1.1,
            (PatchCertificateObject c json s cur mod).1.2.2),
           (PatchCertificateObject c json s cur mod).2.1,
           CallEvent.transformStatus cur.Status ::
             (PatchCertificateObject c json s cur mod).2.2)) ∧
    (∀ us : List Bool, us = [] ∨ us = [false] → transform cur.Status = cur.Status →
      (json.Marshal cur).2 = none →
      (json.CreateMergePatch (json.Marshal cur).1 (json.Marshal cur).1).2 = none →
      ((json.CreateMergePatch (json.Marshal cur).1 (json.Marshal cur).1).1.length = 0 ∨
        (json.CreateMergePatch (json.Marshal cur).1 (json.Marshal cur).1).1 = "\x7b\x7d") →
      UpateCertificateStatus c json s cur transform us =
        ((some cur, none), s, [CallEvent.transformStatus cur.Status])) := by
  have hpatch : ∀ us : List Bool, us = [] ∨ us = [false] →
      UpateCertificateStatus c json s cur transform us =
        (((PatchCertificateObject c json s cur
            ⟨cur.TypeMeta, cur.ObjectMeta, cur.Spec, transform cur.Status⟩).1.1,
          (PatchCertificateObject c json s cur
            ⟨cur.TypeMeta, cur.ObjectMeta, cur.Spec, transform cur.Status⟩).1.2.2),
         (PatchCertificateObject c json s cur
            ⟨cur.TypeMeta, cur.ObjectMeta, cur.Spec, transform cur.Status⟩).2.1,
         CallEvent.transformStatus cur.Status ::
           (PatchCertificateObject c json s cur
            ⟨cur.TypeMeta, cur.ObjectMeta, cur.Spec, transform cur.Status⟩).2.2) := by
    intro us hus
    rcases hus with h | h <;> subst h <;> simp [UpateCertificateStatus]
  refine ⟨?_, ⟨⟨cur.TypeMeta, cur.ObjectMeta, cur.Spec, transform cur.Status⟩,
    rfl, rfl, rfl, rfl, ?_, hpatch⟩, ?_⟩
  · intro us hus
    refine ⟨Errorf ("invalid value passed for useSubresource: " ++ fmtBools us), ?_⟩
    simp [UpateCertificateStatus, hus]
  · simp [UpateCertificateStatus]
  · intro us hus ht hm hp hpe
    rw [hpatch us hus, ht]
    have hcur : (⟨cur.TypeMeta, cur.ObjectMeta, cur.Spec, cur.Status⟩ :
        Certificate Spec Status) = cur := rfl
    rw [hcur]
    have h1 : json.Marshal cur = ((json.Marshal cur).1, none) := by
      rw [← hm]
    have h3 : json.CreateMergePatch (json.Marshal cur).1 (json.Marshal cur).1 =
        ((json.CreateMergePatch (json.Marshal cur).1 (json.Marshal cur).1).1, none) := by
      rw [← hp]
    rw [PatchCertificateObject_of_empty_patch c json s cur cur _ _ _ h1 h1 h3 hpe]

/-- Witness of C10: two values of `useSubresource` are refused without any call,
and on the patch path the identity transform gives `exCert` back without a store
request. -/
theorem UpateCertificateStatus_status_only_witness :
    (∃ err, UpateCertificateStatus exClient exJson 0 exCert (fun st => st ++ "!")
      [true, false] = ((none, some err), 0, [])) ∧
    UpateCertificateStatus exClient exJson 0 exCert (fun st => st) [false] =
      ((some exCert, none), 0, [CallEvent.transformStatus exCert.Status]) :=
  ⟨(UpateCertificateStatus_status_only exClient exJson 0 exCert (fun st => st ++ "!")).1
      [true, false] (by decide),
   (UpateCertificateStatus_status_only exClient exJson 0 exCert (fun st => st)).2.2
      [false] (Or.inr rfl) rfl (by decide) (by decide) (by decide)⟩

/-- An attempt whose `Get` fails with an error other than `NotFound` and hands back
no object dereferences nil. -/
theorem tryUpdateAttempt_panics {σ Spec Status : Type} (c : CertificateClient σ Spec Status)
    (om : ObjectMeta) (transform : Certificate Spec Status → Certificate Spec Status)
    (st : TryState σ Spec Status) (e : GoError) (s1 : σ)
    (hget : c.Get st.store om.Namespace om.Name = ((none, some e), s1))
    (hnf : IsNotFound (some e) = false) :
    tryUpdateAttempt c om transform st = Run.panicked := by
  simp [tryUpdateAttempt, hget, hnf]

/-- When the first `Get` fails with an error other than `NotFound` and hands back
no object, `TryUpdateCertificate` panics, whatever the timeout allows. -/
theorem TryUpdateCertificate_panics {σ Spec Status : Type} (c : CertificateClient σ Spec Status)
    (ticks : Nat) (s : σ) (om : ObjectMeta)
    (transform : Certificate Spec Status → Certificate Spec Status) (e : GoError) (s1 : σ)
    (hget : c.Get s om.Namespace om.Name = ((none, some e), s1))
    (hnf : IsNotFound (some e) = false) :
    TryUpdateCertificate c ticks s om transform = Run.panicked := by
  have h := tryUpdateAttempt_panics c om transform
    { attempt := 0, result := none, store := s, trace := [] } e s1 hget hnf
  simp [TryUpdateCertificate, PollImmediate, pollLoop, h]

/-- The three ways through an attempt when `Get` always hands back an object:
`NotFound` ends the polling with the error and without an update; a successful
`Get` is followed by one `Update` of the transformed object, and the attempt is
done exactly when that update succeeds; any other failed `Get` is logged and the
polling goes on. -/
theorem tryUpdateAttempt_cases {σ Spec Status : Type} (c : CertificateClient σ Spec Status)
    (om : ObjectMeta) (transform : Certificate Spec Status → Certificate Spec Status)
    (hobj : ∀ s ns name, (c.Get s ns name).1.1.isSome = true)
    (st : TryState σ Spec Status) :
    (∃ e, IsNotFound (some e) = true ∧
      tryUpdateAttempt c om transform st = .returned ((false, some e),
        { attempt := st.attempt + 1, result := st.result,
          store := (c.Get st.store om.Namespace om.Name).2,
          trace := st.trace ++ [CallEvent.get om.Namespace om.Name] })) ∨
    (∃ cur, c.Get st.store om.Namespace om.Name =
        ((some cur, none), (c.Get st.store om.Namespace om.Name).2) ∧
      tryUpdateAttempt c om transform st = .returned
        (((c.Update (c.Get st.store om.Namespace om.Name).2 cur.ObjectMeta.Namespace
            (transform cur)).1.2.isNone, none),
        { attempt := st.attempt + 1,
          result := (c.Update (c.Get st.store om.Namespace om.Name).2 cur.ObjectMeta.Namespace
            (transform cur)).1.1,
          store := (c.Update (c.Get st.store om.Namespace om.Name).2 cur.ObjectMeta.Namespace
            (transform cur)).2,
          trace := st.trace ++ [CallEvent.get om.Namespace om.Name, CallEvent.transform cur,
            CallEvent.update cur.ObjectMeta.Namespace (transform cur)] })) ∨
    (∃ msg, tryUpdateAttempt c om transform st = .returned ((false, none),
        { attempt := st.attempt + 1, result := st.result,
          store := (c.Get st.store om.Namespace om.Name).2,
          trace := st.trace ++ [CallEvent.get om.Namespace om.Name,
            CallEvent.logError msg] })) := by
  have ho := hobj st.store om.Namespace om.Name
  rcases hg : c.Get st.store om.Namespace om.Name with ⟨⟨_ | cur, e2⟩, s1⟩
  · rw [hg] at ho; cases ho
  · by_cases hnf : IsNotFound e2 = true
    · left
      cases e2 with
      | none => cases hnf
      | some e => exact ⟨e, hnf, by simp [tryUpdateAttempt, hg, hnf]⟩
    · right
      cases e2 with
      | none =>
        left
        refine ⟨cur, rfl, ?_⟩
        simp [tryUpdateAttempt, hg, IsNotFound]
      | some e =>
        right
        exact ⟨_, by simp [tryUpdateAttempt, hg, hnf]; rfl⟩

/-- A condition that returns an error ends the polling with that error. -/
theorem pollLoop_succ_error {S : Type} (condition : S → Run ((Bool × Option GoError) × S))
    (n : Nat) (st st1 : S) (b : Bool) (e : GoError)
    (h : condition st = .returned ((b, some e), st1)) :
    pollLoop condition (n + 1) st = .returned (some e, st1) := by
  simp only [pollLoop, h]

/-- A condition that returns `true` ends the polling with `nil`. -/
theorem pollLoop_succ_done {S : Type} (condition : S → Run ((Bool × Option GoError) × S))
    (n : Nat) (st st1 : S) (h : condition st = .returned ((true, none), st1)) :
    pollLoop condition (n + 1) st = .returned (none, st1) := by
  simp only [pollLoop, h]

/-- A condition that returns `false` and no error is called again. -/
theorem pollLoop_succ_retry {S : Type} (condition : S → Run ((Bool × Option GoError) × S))
    (n : Nat) (st st1 : S) (h : condition st = .returned ((false, none), st1)) :
    pollLoop condition (n + 1) st = pollLoop condition n st1 := by
  simp only [pollLoop, h]

/-- The polling of `TryUpdateCertificate` when `Get` always hands back an object:
it returns, the counter `attempt` equals the number of `Get` requests made, a
`nil` error comes from an attempt that ended with a successful `Update`, and an
error is the timeout after all calls were used or a `NotFound` from the last
`Get`. -/
theorem pollLoop_tryUpdate {σ Spec Status : Type} (c : CertificateClient σ Spec Status)
    (om : ObjectMeta) (transform : Certificate Spec Status → Certificate Spec Status)
    (hobj : ∀ s ns name, (c.Get s ns name).1.1.isSome = true) :
    ∀ (n : Nat) (st : TryState σ Spec Status), st.attempt = countGets st.trace →
      ∃ err st1, pollLoop (tryUpdateAttempt c om transform) n st = .returned (err, st1) ∧
        st1.attempt = countGets st1.trace ∧ st1.attempt ≤ st.attempt + n ∧
        (err = none → st.attempt < st1.attempt ∧ ∃ tr0 cur s1,
          st1.trace = tr0 ++ [CallEvent.get om.Namespace om.Name, CallEvent.transform cur,
            CallEvent.update cur.ObjectMeta.Namespace (transform cur)] ∧
          c.Update s1 cur.ObjectMeta.Namespace (transform cur) =
            ((st1.result, none), st1.store)) ∧
        (∀ e, err = some e →
          (e = ErrWaitTimeout ∧ st1.attempt = st.attempt + n) ∨
          (IsNotFound (some e) = true ∧ st.attempt < st1.attempt ∧
            ∃ tr0, st1.trace = tr0 ++ [CallEvent.get om.Namespace om.Name])) := by
  intro n
  induction n with
  | zero =>
    intro st hinv
    refine ⟨some ErrWaitTimeout, st, rfl, hinv, Nat.le_refl _, ?_, ?_⟩
    · intro h; cases h
    · intro e he
      injection he with he
      exact Or.inl ⟨he.symm, rfl⟩
  | succ n ih =>
    intro st hinv
    rcases tryUpdateAttempt_cases c om transform hobj st with
      ⟨e, hnf, hat⟩ | ⟨cur, hget, hat⟩ | ⟨msg, hat⟩
    · refine ⟨some e, _, pollLoop_succ_error _ n st _ false e hat, ?_, ?_, ?_, ?_⟩
      · simp [countGets, List.countP_append, CallEvent.isGet, hinv]
      · simp only; omega
      · intro h; cases h
      · intro e1 he1
        injection he1 with he1
        subst he1
        exact Or.inr ⟨hnf, by simp only; omega, ⟨st.trace, rfl⟩⟩
    · rcases hu : c.Update (c.Get st.store om.Namespace om.Name).2 cur.ObjectMeta.Namespace
          (transform cur) with ⟨⟨res, _ | e3⟩, s2⟩
      · rw [hu] at hat
        refine ⟨none, _, pollLoop_succ_done _ n st _ hat, ?_, ?_, ?_, ?_⟩
        · simp [countGets, List.countP_append, CallEvent.isGet, hinv]
        · simp only; omega
        · intro _
          exact ⟨by simp only; omega, st.trace, cur, _, rfl, hu⟩
        · intro e he; cases he
      · rw [hu] at hat
        obtain ⟨err, st1, hp, hinv1, hle, hnone, hsome⟩ := ih
          { attempt := st.attempt + 1, result := res, store := s2,
            trace := st.trace ++ [CallEvent.get om.Namespace om.Name, CallEvent.transform cur,
              CallEvent.update cur.ObjectMeta.Namespace (transform cur)] }
          (by simp [countGets, List.countP_append, CallEvent.isGet, hinv])
        refine ⟨err, st1, (pollLoop_succ_retry _ n st _ hat).trans hp, hinv1,
          by simp only at hle; omega, ?_, ?_⟩
        · intro h
          obtain ⟨hlt, hex⟩ := hnone h
          exact ⟨by simp only at hlt; omega, hex⟩
        · intro e he
          rcases hsome e he with ⟨h1, h2⟩ | ⟨h1, h2, h3⟩
          · exact Or.inl ⟨h1, by simp only at h2; omega⟩
          · exact Or.inr ⟨h1, by simp only at h2; omega, h3⟩
    · obtain ⟨err, st1, hp, hinv1, hle, hnone, hsome⟩ := ih
        { attempt := st.attempt + 1, result := st.result,
          store := (c.Get st.store om.Namespace om.Name).2,
          trace := st.trace ++ [CallEvent.get om.Namespace om.Name, CallEvent.logError msg] }
        (by simp [countGets, List.countP_append, CallEvent.isGet, hinv])
      refine ⟨err, st1, (pollLoop_succ_retry _ n st _ hat).trans hp, hinv1,
        by simp only at hle; omega, ?_, ?_⟩
      · intro h
        obtain ⟨hlt, hex⟩ := hnone h
        exact ⟨by simp only at hlt; omega, hex⟩
      · intro e he
        rcases hsome e he with ⟨h1, h2⟩ | ⟨h1, h2, h3⟩
        · exact Or.inl ⟨h1, by simp only at h2; omega⟩
        · exact Or.inr ⟨h1, by simp only at h2; omega, h3⟩

/-- For a client whose `Get` always hands back an object (as the generated typed
clientset does) `TryUpdateCertificate` re-reads and retries: it returns after at least
one and at most `ticks + 1` attempts; a `nil` error comes with the object of a
successful `Update` of the transformed object just read, which was the last
call; and an error has the message "failed to update Certificate ns/name after
n attempts due to cause" with `n` the number of attempts made, the cause being
the timeout after all attempts or a `NotFound` of the last `Get`, after which no
`Update` was sent. -/
theorem TryUpdateCertificate_of_objects {σ Spec Status : Type}
    (c : CertificateClient σ Spec Status) (ticks : Nat) (s : σ) (om : ObjectMeta)
    (transform : Certificate Spec Status → Certificate Spec Status)
    (hobj : ∀ s ns name, (c.Get s ns name).1.1.isSome = true) :
    ∃ res err s1 tr, TryUpdateCertificate c ticks s om transform =
        .returned ((res, err), s1, tr) ∧
      1 ≤ countGets tr ∧ countGets tr ≤ ticks + 1 ∧
      (err = none → ∃ tr0 cur s0,
        tr = tr0 ++ [CallEvent.get om.Namespace om.Name, CallEvent.transform cur,
          CallEvent.update cur.ObjectMeta.Namespace (transform cur)] ∧
        c.Update s0 cur.ObjectMeta.Namespace (transform cur) = ((res, none), s1)) ∧
      (∀ e, err = some e → ∃ cause,
        e = Errorf ("failed to update Certificate " ++ om.Namespace ++ "/" ++ om.Name ++
          " after " ++ fmtInt (countGets tr) ++ " attempts due to " ++ cause.Error) ∧
        ((cause = ErrWaitTimeout ∧ countGets tr = ticks + 1) ∨
          (IsNotFound (some cause) = true ∧
            ∃ tr0, tr = tr0 ++ [CallEvent.get om.Namespace om.Name]))) := by
  obtain ⟨err, st1, hp, hinv, hle, hnone, hsome⟩ := pollLoop_tryUpdate c om transform hobj
    (ticks + 1) { attempt := 0, result := none, store := s, trace := [] } rfl
  simp only [Nat.zero_add] at hle hnone hsome
  cases err with
  | none =>
    obtain ⟨hlt, tr0, cur, s0, htr, hu⟩ := hnone rfl
    refine ⟨st1.result, none, st1.store, st1.trace,
      by simp only [TryUpdateCertificate, PollImmediate, hp], by omega, by omega,
      fun _ => ⟨tr0, cur, s0, htr, hu⟩, ?_⟩
    intro e he; cases he
  | some cause =>
    have hge : 1 ≤ st1.attempt := by
      rcases hsome cause rfl with ⟨_, h2⟩ | ⟨_, h2, _⟩ <;> omega
    refine ⟨st1.result, some (Errorf ("failed to update Certificate " ++ om.Namespace ++ "/" ++
        om.Name ++ " after " ++ fmtInt st1.attempt ++ " attempts due to " ++ cause.Error)),
      st1.store, st1.trace,
      by simp only [TryUpdateCertificate, PollImmediate, hp], by omega, by omega,
      ?_, ?_⟩
    · intro h; cases h
    intro e he
    injection he with he
    subst he
    refine ⟨cause, by rw [hinv], ?_⟩
    rcases hsome cause rfl with ⟨h1, h2⟩ | ⟨h1, _, h3⟩
    · exact Or.inl ⟨h1, by omega⟩
    · exact Or.inr ⟨h1, h3⟩

/-- An evaluation of `TryUpdateCertificate`: two updates are refused with a
conflict, the third attempt succeeds, and the result is the object of that
update. -/
theorem TryUpdateCertificate_retries_after_conflict :
    TryUpdateCertificate exClient 5 0 exCert.ObjectMeta (fun x => { x with Status := "issued" }) =
      Run.returned ((some { exCert with Status := "issued" }, none), 6,
        [CallEvent.get "demo" "web", CallEvent.transform exCert,
         CallEvent.update "demo" { exCert with Status := "issued" },
         CallEvent.get "demo" "web", CallEvent.transform exCert,
         CallEvent.update "demo" { exCert with Status := "issued" },
         CallEvent.get "demo" "web", CallEvent.transform exCert,
         CallEvent.update "demo" { exCert with Status := "issued" }]) := by
  decide

/-- An evaluation of `TryUpdateCertificate`: when the timeout allows two attempts
and both updates are refused, the error counts two attempts and names the
timeout. -/
theorem TryUpdateCertificate_times_out :
    (TryUpdateCertificate exClient 1 0 exCert.ObjectMeta (fun x => x)) =
      Run.returned ((none, some (GoError.errorf
        "failed to update Certificate demo/web after 2 attempts due to timed out waiting for the condition")),
        4,
        [CallEvent.get "demo" "web", CallEvent.transform exCert,
         CallEvent.update "demo" exCert,
         CallEvent.get "demo" "web", CallEvent.transform exCert,
         CallEvent.update "demo" exCert]) := by
  decide

/-- C9, at a failing input: when the first `Get` fails with an error that is not
`NotFound` and hands back a nil object, as the generated fake clientset does,
`TryUpdateCertificate` does not make another attempt and does not return at all:
it dereferences the nil object at line 74. -/
theorem TryUpdateCertificate_panics_on_nil_object :
    TryUpdateCertificate exNilOnErrorClient 3 0 exCert.ObjectMeta (fun x => x) =
      Run.panicked := by
  decide

/-! ## Theorems: the synthesis of section 4.2 -/

/-- A property that every step of a fold keeps holds after the fold. -/
theorem foldl_preserves {α β : Type} (step : β → α → β) (Inv : β → Prop) (rs : List α)
    (h : ∀ b, ∀ r ∈ rs, Inv b → Inv (step b r)) : ∀ b, Inv b → Inv (rs.foldl step b) := by
  induction rs with
  | nil => intro b hb; exact hb
  | cons a rs ih =>
    intro b hb
    exact ih (fun b r hr => h b r (List.mem_cons_of_mem a hr)) _
      (h b a (List.mem_cons_self a rs) hb)

/-- What the step of a fold establishes for its element, and every step keeps, holds
after the fold for every element. -/
theorem foldl_establishes {α β : Type} (step : β → α → β) (Has : β → α → Prop) (rs : List α)
    (hnew : ∀ b, ∀ r ∈ rs, Has (step b r) r)
    (hmono : ∀ b r x, Has b x → Has (step b r) x) :
    ∀ b, ∀ r ∈ rs, Has (rs.foldl step b) r := by
  induction rs with
  | nil => intro b r hr; cases hr
  | cons a rs ih =>
    intro b r hr
    rcases List.mem_cons.mp hr with h | h
    · subst h
      exact foldl_preserves step (fun b => Has b r) rs (fun b x _ hb => hmono b x r hb) _
        (hnew b r (List.mem_cons_self r rs))
    · exact ih (fun b x hx => hnew b x (List.mem_cons_of_mem a hx)) _ r h

/-- A change of the frontends that keeps the bind port keeps the bind ports. -/
theorem bindPorts_map (g : Frontend → Frontend) (hport : ∀ f, (g f).bindPort = f.bindPort)
    (fs : List Frontend) : bindPorts (fs.map g) = bindPorts fs := by
  unfold bindPorts
  rw [List.map_map]
  exact List.map_congr_left (fun f _ => hport f)

/-- Where no port is bound twice, a frontend is the frontend at its port. -/
theorem isFrontendAt_of_nodup (fs : List Frontend) (h : (bindPorts fs).Nodup) (f : Frontend)
    (hf : f ∈ fs) : IsFrontendAt fs f.bindPort f :=
  ⟨hf, rfl, fun _ hg hp => List.inj_on_of_nodup_map h hg hf hp⟩

/-- Adding a rule binds no port twice. -/
theorem addRule_nodup (fs : List Frontend) (port : Nat) (mode : Mode) (pr : PathRule)
    (h : (bindPorts fs).Nodup) : (bindPorts (addRule fs port mode pr)).Nodup := by
  unfold addRule
  split
  · rw [bindPorts_map _ (fun f => by split <;> rfl)]
    exact h
  · rename_i hany
    have hnot : port ∉ bindPorts fs := by
      intro hp
      obtain ⟨f, hf, hfp⟩ := List.mem_map.mp hp
      exact hany (List.any_eq_true.mpr ⟨f, hf, by simpa using hfp⟩)
    simp only [bindPorts, List.map_append, List.map_cons, List.map_nil]
    exact List.Nodup.append h (List.nodup_singleton _)
      (by
        intro x hx hx2
        rw [List.mem_singleton] at hx2
        subst hx2
        exact hnot hx)

/-- A rule that was added is held by the frontend of its port. -/
theorem addRule_hasRule_new (fs : List Frontend) (port : Nat) (mode : Mode) (pr : PathRule) :
    HasRule (addRule fs port mode pr) port pr := by
  unfold addRule
  split
  · rename_i h
    obtain ⟨f, hf, hp⟩ := List.any_eq_true.mp h
    have hp2 : f.bindPort = port := by simpa using hp
    exact ⟨{ f with rules := f.rules ++ [pr] }, List.mem_map.mpr ⟨f, hf, by simp [hp2]⟩,
      hp2, by simp⟩
  · exact ⟨_, List.mem_append_right _ (List.mem_singleton.mpr rfl), rfl,
      List.mem_singleton.mpr rfl⟩

/-- Adding a rule keeps every rule that was held. -/
theorem addRule_hasRule_mono (fs : List Frontend) (port : Nat) (mode : Mode) (pr : PathRule)
    (q : Nat) (x : PathRule) (h : HasRule fs q x) :
    HasRule (addRule fs port mode pr) q x := by
  obtain ⟨f, hf, hq, hx⟩ := h
  unfold addRule
  split
  · by_cases hc : (f.bindPort == port) = true
    · exact ⟨{ f with rules := f.rules ++ [pr] }, List.mem_map.mpr ⟨f, hf, by simp [hc]⟩,
        hq, List.mem_append_left _ hx⟩
    · exact ⟨f, List.mem_map.mpr ⟨f, hf, by simp [hc]⟩, hq, hx⟩
  · exact ⟨f, List.mem_append_left _ hf, hq, hx⟩

/-- Adding a rule keeps a property of all frontends that the new rule and a new
frontend respect. -/
theorem addRule_allFrontends (fs : List Frontend) (port : Nat) (mode : Mode) (pr : PathRule)
    (Q : Frontend → Prop) (h : AllFrontends fs Q)
    (hupd : ∀ f, Q f → Q { f with rules := f.rules ++ [pr] })
    (hnew : Q ⟨port, mode, [pr], false, none⟩) :
    AllFrontends (addRule fs port mode pr) Q := by
  intro f hf
  unfold addRule at hf
  split at hf
  · obtain ⟨g, hg, rfl⟩ := List.mem_map.mp hf
    split
    · exact hupd g (h g hg)
    · exact h g hg
  · rcases List.mem_append.mp hf with hf | hf
    · exact h f hf
    · rw [List.mem_singleton.mp hf]; exact hnew

/-- Step 3 binds no port twice. -/
theorem explicitFrontends_nodup (tls : List TLSBinding) (rules : List RouteRule) :
    (bindPorts (explicitFrontends tls rules)).Nodup :=
  foldl_preserves (explicitStep tls) (fun fs => (bindPorts fs).Nodup) rules
    (fun fs _ _ h => addRule_nodup fs _ _ _ h) [] List.nodup_nil

/-- After step 3 every input rule has its `Forward` in the frontend of its
effective port. -/
theorem explicitFrontends_has (tls : List TLSBinding) (rules : List RouteRule) (r : RouteRule)
    (hr : r ∈ rules) :
    HasRule (explicitFrontends tls rules) (effectivePort tls r)
      ⟨r.host, r.path, Action.Forward r.backendRef⟩ :=
  foldl_establishes (explicitStep tls)
    (fun fs r => HasRule fs (effectivePort tls r) ⟨r.host, r.path, Action.Forward r.backendRef⟩)
    rules (fun fs _ _ => addRule_hasRule_new fs _ _ _)
    (fun fs _ _ h => addRule_hasRule_mono fs _ _ _ _ _ h) [] r hr

/-- Step 3 yields frontends with a property that `Forward` rules respect and the
frontends it creates have. -/
theorem explicitFrontends_all (tls : List TLSBinding) (rules : List RouteRule)
    (Q : Frontend → Prop)
    (hupd : ∀ r ∈ rules, ∀ f, Q f →
      Q { f with rules := f.rules ++ [⟨r.host, r.path, Action.Forward r.backendRef⟩] })
    (hnew : ∀ r ∈ rules, Q ⟨effectivePort tls r, ruleMode tls r,
      [⟨r.host, r.path, Action.Forward r.backendRef⟩], false, none⟩) :
    AllFrontends (explicitFrontends tls rules) Q :=
  foldl_preserves (explicitStep tls) (fun fs => AllFrontends fs Q) rules
    (fun fs r hr h => addRule_allFrontends fs _ _ _ Q h (hupd r hr) (hnew r hr)) []
    (fun f hf => by cases hf)

/-- One round of step 4 binds no port twice. -/
theorem redirectStep_nodup (tls : List TLSBinding) (rules : List RouteRule) (fs : List Frontend)
    (r : RouteRule) (h : (bindPorts fs).Nodup) :
    (bindPorts (redirectStep tls rules fs r)).Nodup := by
  unfold redirectStep
  split
  · exact addRule_nodup fs _ _ _ h
  · exact h

/-- One round of step 4 keeps every rule that was held. -/
theorem redirectStep_mono (tls : List TLSBinding) (rules : List RouteRule) (fs : List Frontend)
    (r : RouteRule) (q : Nat) (x : PathRule) (h : HasRule fs q x) :
    HasRule (redirectStep tls rules fs r) q x := by
  unfold redirectStep
  split
  · exact addRule_hasRule_mono fs _ _ _ q x h
  · exact h

/-- One round of step 4 for a rule that needs the redirect leaves the redirect in
the frontend at port 80. -/
theorem redirectStep_has (tls : List TLSBinding) (rules : List RouteRule) (fs : List Frontend)
    (r : RouteRule) (hn : needsRedirect tls rules r = true) :
    HasRule (redirectStep tls rules fs r) 80 ⟨r.host, r.path, Action.Redirect 443 308⟩ := by
  unfold redirectStep
  split
  · exact addRule_hasRule_new fs _ _ _
  · rename_i h
    rw [hn, Bool.true_and, Bool.not_eq_true, Bool.not_eq_false'] at h
    obtain ⟨f, hf, hc⟩ := List.any_eq_true.mp h
    simp only [Bool.and_eq_true, beq_iff_eq, decide_eq_true_eq] at hc
    exact ⟨f, hf, hc.1, hc.2⟩

/-- One round of step 4 keeps a property of all frontends that the redirect of a
rule in need and a new HTTP frontend at port 80 respect. -/
theorem redirectStep_allFrontends (tls : List TLSBinding) (rules : List RouteRule)
    (fs : List Frontend) (r : RouteRule) (Q : Frontend → Prop) (h : AllFrontends fs Q)
    (hupd : needsRedirect tls rules r = true → ∀ f, Q f →
      Q { f with rules := f.rules ++ [⟨r.host, r.path, Action.Redirect 443 308⟩] })
    (hnew : needsRedirect tls rules r = true →
      Q ⟨80, Mode.HTTP, [⟨r.host, r.path, Action.Redirect 443 308⟩], false, none⟩) :
    AllFrontends (redirectStep tls rules fs r) Q := by
  unfold redirectStep
  split
  · rename_i hc
    simp only [Bool.and_eq_true] at hc
    exact addRule_allFrontends fs _ _ _ Q h (hupd hc.1) (hnew hc.1)
  · exact h

/-- Step 4 binds no port twice. -/
theorem injectRedirects_nodup (a : AnnotationSet) (tls : List TLSBinding)
    (rules : List RouteRule) (fs : List Frontend) (h : (bindPorts fs).Nodup) :
    (bindPorts (injectRedirects a tls rules fs)).Nodup := by
  unfold injectRedirects
  split
  · exact h
  · exact foldl_preserves (redirectStep tls rules) (fun fs => (bindPorts fs).Nodup) rules
      (fun fs r _ h => redirectStep_nodup tls rules fs r h) fs h

/-- Step 4 keeps every rule that was held. -/
theorem injectRedirects_mono (a : AnnotationSet) (tls : List TLSBinding)
    (rules : List RouteRule) (fs : List Frontend) (q : Nat) (x : PathRule)
    (h : HasRule fs q x) : HasRule (injectRedirects a tls rules fs) q x := by
  unfold injectRedirects
  split
  · exact h
  · exact foldl_preserves (redirectStep tls rules) (fun fs => HasRule fs q x) rules
      (fun fs r _ h => redirectStep_mono tls rules fs r q x h) fs h

/-- After step 4, unless `sslRedirect` is false, every rule that needs the redirect
has it in the frontend at port 80. -/
theorem injectRedirects_has (a : AnnotationSet) (tls : List TLSBinding)
    (rules : List RouteRule) (fs : List Frontend) (hred : a.sslRedirect ≠ some false)
    (r : RouteRule) (hr : r ∈ rules) (hn : needsRedirect tls rules r = true) :
    HasRule (injectRedirects a tls rules fs) 80 ⟨r.host, r.path, Action.Redirect 443 308⟩ := by
  unfold injectRedirects
  rw [if_neg hred]
  exact foldl_establishes (redirectStep tls rules)
    (fun fs r => needsRedirect tls rules r = true →
      HasRule fs 80 ⟨r.host, r.path, Action.Redirect 443 308⟩)
    rules (fun fs r _ hn => redirectStep_has tls rules fs r hn)
    (fun fs r x h hn => redirectStep_mono tls rules fs r _ _ (h hn)) fs r hr hn

/-- Step 4 keeps a property of all frontends that the redirects of the rules in
need and a new HTTP frontend at port 80 respect. -/
theorem injectRedirects_allFrontends (a : AnnotationSet) (tls : List TLSBinding)
    (rules : List RouteRule) (fs : List Frontend) (Q : Frontend → Prop)
    (h : AllFrontends fs Q)
    (hupd : ∀ r ∈ rules, needsRedirect tls rules r = true → ∀ f, Q f →
      Q { f with rules := f.rules ++ [⟨r.host, r.path, Action.Redirect 443 308⟩] })
    (hnew : ∀ r ∈ rules, needsRedirect tls rules r = true →
      Q ⟨80, Mode.HTTP, [⟨r.host, r.path, Action.Redirect 443 308⟩], false, none⟩) :
    AllFrontends (injectRedirects a tls rules fs) Q := by
  unfold injectRedirects
  split
  · exact h
  · exact foldl_preserves (redirectStep tls rules) (fun fs => AllFrontends fs Q) rules
      (fun fs r hr h => redirectStep_allFrontends tls rules fs r Q h (hupd r hr) (hnew r hr))
      fs h

/-- A frontend stands in `Keeps` to itself. -/
theorem keeps_refl (a : AnnotationSet) (f : Frontend) : Keeps a f f :=
  ⟨rfl, rfl, fun _ hx => hx, fun _ => ⟨rfl, fun _ hx => hx⟩⟩

/-- The relation `Keeps` composes. -/
theorem keeps_trans (a : AnnotationSet) (f g k : Frontend) (h1 : Keeps a f g)
    (h2 : Keeps a g k) : Keeps a f k :=
  ⟨h2.1.trans h1.1, h2.2.1.trans h1.2.1, fun x hx => h2.2.2.1 x (h1.2.2.1 x hx),
    fun hf => ⟨((h2.2.2.2 hf).1).trans (h1.2.2.2 hf).1,
      fun x hx => (h1.2.2.2 hf).2 x ((h2.2.2.2 hf).2 x hx)⟩⟩

/-- Every frontend of a changed sequence comes from one of the sequence. -/
theorem keeps_map_mem (a : AnnotationSet) (g : Frontend → Frontend)
    (hg : ∀ f, Keeps a f (g f)) (fs : List Frontend) (k : Frontend) (h : k ∈ fs.map g) :
    ∃ f ∈ fs, Keeps a f k := by
  obtain ⟨f, hf, rfl⟩ := List.mem_map.mp h
  exact ⟨f, hf, hg f⟩

/-- Every frontend of a sequence has its image in the changed sequence. -/
theorem keeps_map_mem_of (a : AnnotationSet) (g : Frontend → Frontend)
    (hg : ∀ f, Keeps a f (g f)) (fs : List Frontend) (f : Frontend) (h : f ∈ fs) :
    ∃ k ∈ fs.map g, Keeps a f k :=
  ⟨g f, List.mem_map.mpr ⟨f, h, rfl⟩, hg f⟩

/-- Step 5 on one frontend. -/
theorem force_keeps (a : AnnotationSet) (h : a.forceSSLRedirect = some true) (f : Frontend) :
    Keeps a f (if f.mode = Mode.HTTP then
      { f with rules := f.rules ++ [⟨"", "", Action.Redirect 443 308⟩], forceRedirect := true }
      else f) := by
  split
  · exact ⟨rfl, rfl, fun x hx => List.mem_append_left _ hx, fun hf => absurd h hf⟩
  · exact keeps_refl a f

/-- Step 6 on one frontend. -/
theorem hsts_keeps (a : AnnotationSet) (f : Frontend) :
    Keeps a f (if f.mode = Mode.HTTPSTerminated then { f with hsts := some (hstsHeader a) }
      else f) := by
  split
  · exact ⟨rfl, rfl, fun _ hx => hx, fun _ => ⟨rfl, fun _ hx => hx⟩⟩
  · exact keeps_refl a f

/-- Step 7 on one frontend. -/
theorem order_keeps (a : AnnotationSet) (f : Frontend) :
    Keeps a f
      { f with rules := f.rules.insertionSort (fun a b => b.path.length ≤ a.path.length) } :=
  ⟨rfl, rfl, fun _ hx => (List.mem_insertionSort _).mpr hx,
    fun _ => ⟨rfl, fun _ hx => (List.mem_insertionSort _).mp hx⟩⟩

/-- Every frontend after steps 5 to 7 comes from a frontend before them. -/
theorem pipeline_mem (a : AnnotationSet) (fs : List Frontend) (k : Frontend)
    (h : k ∈ orderRules (attachHSTS a (applyForceRedirect a fs))) :
    ∃ f ∈ fs, Keeps a f k := by
  obtain ⟨f2, hf2, h2⟩ := keeps_map_mem a _ (order_keeps a) _ k h
  have h6 : ∃ f1 ∈ applyForceRedirect a fs, Keeps a f1 f2 := by
    unfold attachHSTS at hf2
    split at hf2
    · exact keeps_map_mem a _ (hsts_keeps a) _ f2 hf2
    · exact ⟨f2, hf2, keeps_refl a f2⟩
  obtain ⟨f1, hf1, h1⟩ := h6
  have h5 : ∃ f ∈ fs, Keeps a f f1 := by
    unfold applyForceRedirect at hf1
    split at hf1
    · rename_i hforce
      exact keeps_map_mem a _ (force_keeps a hforce) _ f1 hf1
    · exact ⟨f1, hf1, keeps_refl a f1⟩
  obtain ⟨f, hf, h0⟩ := h5
  exact ⟨f, hf, keeps_trans a f f1 k h0 (keeps_trans a f1 f2 k h1 h2)⟩

/-- Every frontend before steps 5 to 7 has its image after them. -/
theorem pipeline_mem_of (a : AnnotationSet) (fs : List Frontend) (f : Frontend) (h : f ∈ fs) :
    ∃ k ∈ orderRules (attachHSTS a (applyForceRedirect a fs)), Keeps a f k := by
  have h5 : ∃ f1 ∈ applyForceRedirect a fs, Keeps a f f1 := by
    unfold applyForceRedirect
    split
    · rename_i hforce
      exact keeps_map_mem_of a _ (force_keeps a hforce) _ f h
    · exact ⟨f, h, keeps_refl a f⟩
  obtain ⟨f1, hf1, h1⟩ := h5
  have h6 : ∃ f2 ∈ attachHSTS a (applyForceRedirect a fs), Keeps a f1 f2 := by
    unfold attachHSTS
    split
    · exact keeps_map_mem_of a _ (hsts_keeps a) _ f1 hf1
    · exact ⟨f1, hf1, keeps_refl a f1⟩
  obtain ⟨f2, hf2, h2⟩ := h6
  obtain ⟨k, hk, h3⟩ := keeps_map_mem_of a _ (order_keeps a) _ f2 hf2
  exact ⟨k, hk, keeps_trans a f f1 k h1 (keeps_trans a f1 f2 k h2 h3)⟩

/-- Steps 5 to 7 keep the bind ports. -/
theorem pipeline_bindPorts (a : AnnotationSet) (fs : List Frontend) :
    bindPorts (orderRules (attachHSTS a (applyForceRedirect a fs))) = bindPorts fs := by
  have h5 : bindPorts (applyForceRedirect a fs) = bindPorts fs := by
    unfold applyForceRedirect
    split
    · exact bindPorts_map _ (fun f => by split <;> rfl) fs
    · rfl
  have h6 : bindPorts (attachHSTS a (applyForceRedirect a fs)) = bindPorts fs := by
    unfold attachHSTS
    split
    · rw [bindPorts_map _ (fun f => by split <;> rfl)]
      exact h5
    · exact h5
  have h7 : bindPorts (orderRules (attachHSTS a (applyForceRedirect a fs))) =
      bindPorts (attachHSTS a (applyForceRedirect a fs)) := by
    unfold orderRules
    apply bindPorts_map
    intro f
    rfl
  exact h7.trans h6

/-- Steps 3 to 7 bind no port twice. -/
theorem steps_nodup (a : AnnotationSet) (tls : List TLSBinding) (rules : List RouteRule) :
    (bindPorts (orderRules (attachHSTS a (applyForceRedirect a
      (injectRedirects a tls rules (explicitFrontends tls rules)))))).Nodup := by
  rw [pipeline_bindPorts]
  exact injectRedirects_nodup a tls rules _ (explicitFrontends_nodup tls rules)

/-- After steps 3 to 7 a rule held after step 4 is held by the frontend at its
port, whose mode is the mode after step 4. -/
theorem steps_frontendAt (a : AnnotationSet) (tls : List TLSBinding) (rules : List RouteRule)
    (q : Nat) (x : PathRule)
    (h : HasRule (injectRedirects a tls rules (explicitFrontends tls rules)) q x) :
    ∃ f ∈ injectRedirects a tls rules (explicitFrontends tls rules), ∃ k,
      IsFrontendAt (orderRules (attachHSTS a (applyForceRedirect a
        (injectRedirects a tls rules (explicitFrontends tls rules))))) q k ∧
      f.bindPort = q ∧ k.mode = f.mode ∧ x ∈ k.rules := by
  obtain ⟨f, hf, hq, hx⟩ := h
  obtain ⟨k, hk, hkeep⟩ := pipeline_mem_of a _ f hf
  have hat := isFrontendAt_of_nodup _ (steps_nodup a tls rules) k hk
  rw [hkeep.1, hq] at hat
  exact ⟨f, hf, k, hat, hq, hkeep.2.1, hkeep.2.2.1 x hx⟩

/-- The backends resolve when the resolver finds each of them. -/
theorem resolveBackends_ok (endpoints : BackendRef → Option (List Endpoint)) :
    ∀ bs : List BackendRef, (∀ b ∈ bs, (endpoints b).isSome = true) →
      ∃ l, resolveBackends endpoints bs = .ok l := by
  intro bs
  induction bs with
  | nil => intro _; exact ⟨[], rfl⟩
  | cons b bs ih =>
    intro h
    obtain ⟨l, hl⟩ := ih (fun x hx => h x (List.mem_cons_of_mem b hx))
    obtain ⟨eps, he⟩ := Option.isSome_iff_exists.mp (h b (List.mem_cons_self b bs))
    exact ⟨(b, eps) :: l, by simp [resolveBackends, he, hl]⟩

/-- The only failure of the resolution is `BackendNotFound`. -/
theorem resolveBackends_error (endpoints : BackendRef → Option (List Endpoint)) :
    ∀ (bs : List BackendRef) (e : SynthError), resolveBackends endpoints bs = .error e →
      e = SynthError.BackendNotFound := by
  intro bs
  induction bs with
  | nil => intro e h; simp [resolveBackends] at h
  | cons b bs ih =>
    intro e h
    unfold resolveBackends at h
    split at h
    · injection h with h; exact h.symm
    · split at h
      · rename_i e2 he2
        injection h with h
        subst h
        exact ih _ he2
      · cases h

/-- The backends of the rules resolve when the resolver finds the backend of every
rule. -/
theorem synthesize_resolves (inp : SynthInput)
    (hres : ∀ x ∈ inp.rules, (inp.endpoints x.backendRef).isSome = true) :
    ∃ l, resolveBackends inp.endpoints (inp.rules.map (fun r => r.backendRef)).dedup = .ok l := by
  apply resolveBackends_ok
  intro b hb
  obtain ⟨x, hx, rfl⟩ := List.mem_map.mp (List.mem_dedup.mp hb)
  exact hres x hx

/-- Without passthrough, with every backend found and no ambiguity, the synthesis
yields the frontends of steps 3 to 7. -/
theorem synthesize_ok_of_no_passthrough (inp : SynthInput)
    (hpass : inp.annotations.sslPassthrough ≠ some true)
    (hres : ∀ x ∈ inp.rules, (inp.endpoints x.backendRef).isSome = true)
    (hamb : ambiguous inp.tls inp.rules = false) :
    ∃ l, synthesize inp = .ok
      { frontends := orderRules (attachHSTS inp.annotations
          (applyForceRedirect inp.annotations
            (injectRedirects inp.annotations inp.tls inp.rules
              (explicitFrontends inp.tls inp.rules)))),
        backends := l } := by
  obtain ⟨l, hl⟩ := synthesize_resolves inp hres
  exact ⟨l, by simp [synthesize, hl, hpass, hamb]⟩

/-- With passthrough and every backend found, the synthesis yields the one
passthrough frontend. -/
theorem synthesize_ok_of_passthrough (inp : SynthInput)
    (hpass : inp.annotations.sslPassthrough = some true)
    (hres : ∀ x ∈ inp.rules, (inp.endpoints x.backendRef).isSome = true) :
    ∃ l, synthesize inp = .ok
      { frontends := [passthroughFrontend inp.rules], backends := l } := by
  obtain ⟨l, hl⟩ := synthesize_resolves inp hres
  exact ⟨l, by simp [synthesize, hl, hpass]⟩

/-- The frontends of a configuration the synthesis yields: the passthrough
frontend alone, or those of steps 3 to 7. -/
theorem synthesize_frontends (inp : SynthInput) (cfg : CanonicalConfig)
    (hok : synthesize inp = .ok cfg) :
    (inp.annotations.sslPassthrough = some true ∧
      cfg.frontends = [passthroughFrontend inp.rules]) ∨
    (inp.annotations.sslPassthrough ≠ some true ∧
      cfg.frontends = orderRules (attachHSTS inp.annotations
          (applyForceRedirect inp.annotations
            (injectRedirects inp.annotations inp.tls inp.rules
              (explicitFrontends inp.tls inp.rules))))) := by
  unfold synthesize at hok
  split at hok
  · cases hok
  · split at hok
    · rename_i hp
      injection hok with hok
      subst hok
      exact Or.inl ⟨hp, rfl⟩
    · rename_i hp
      split at hok
      · cases hok
      · injection hok with hok
        subst hok
        exact Or.inr ⟨hp, rfl⟩

/-- A rule at port 443 of a host in a TLS binding, with no rule at port 80 for its
host and path, needs the redirect of step 4. -/
theorem needsRedirect_of_gap (tls : List TLSBinding) (rules : List RouteRule) (r : RouteRule)
    (hcov : ∃ b ∈ tls, r.host ∈ b.hosts) (h443 : effectivePort tls r = 443)
    (hno80 : ∀ x ∈ rules, x.host = r.host → x.path = r.path → effectivePort tls x ≠ 80) :
    needsRedirect tls rules r = true := by
  obtain ⟨b, hb, hHb⟩ := hcov
  have hc : covered tls r.host = true :=
    List.any_eq_true.mpr ⟨b, hb, by simpa using hHb⟩
  have hany : rules.any (fun r2 => effectivePort tls r2 == 80 &&
      r2.host == r.host && r2.path == r.path) = false := by
    rw [Bool.eq_false_iff]
    intro hany
    obtain ⟨x, hx, hxc⟩ := List.any_eq_true.mp hany
    simp only [Bool.and_eq_true, beq_iff_eq] at hxc
    exact hno80 x hx hxc.1.2 hxc.2 hxc.1.1
  simp [needsRedirect, hc, h443, hany]

/-- A rule whose host and path another rule configures at port 80 needs no
redirect. -/
theorem needsRedirect_of_explicit (tls : List TLSBinding) (rules : List RouteRule)
    (r r80 : RouteRule) (h80 : r80 ∈ rules) (hhost : r80.host = r.host)
    (hpath : r80.path = r.path) (hport : effectivePort tls r80 = 80) :
    needsRedirect tls rules r = false := by
  have hany : rules.any (fun r2 => effectivePort tls r2 == 80 &&
      r2.host == r.host && r2.path == r.path) = true := by
    refine List.any_eq_true.mpr ⟨r80, h80, ?_⟩
    simp only [Bool.and_eq_true, beq_iff_eq]
    exact ⟨⟨hport, hhost⟩, hpath⟩
  simp [needsRedirect, hany]

/-- C3, amended: redirect gap-filling. Let `sslPassthrough` be not true,
`sslRedirect` not false, every backend resolve, no two rules be ambiguous, and
every rule at port 80 bind plaintext. Then the synthesis yields a configuration
that binds no port twice, and for every host `H` in a TLS binding and every path
`p` that a rule `r` with TLS configures at port 443 while no rule configures
`(H, p)` at port 80, the frontend of that configuration at port 80 is in HTTP
mode and has a `Redirect(443, 308)` rule for `(H, p)`, and its frontend at port
443 forwards `(H, p)` to the backend of `r`, whatever other rules there are. -/
theorem redirect_gap_filling (inp : SynthInput) (H p : String) (r : RouteRule)
    (hpass : inp.annotations.sslPassthrough ≠ some true)
    (hred : inp.annotations.sslRedirect ≠ some false)
    (hres : ∀ x ∈ inp.rules, (inp.endpoints x.backendRef).isSome = true)
    (hamb : ambiguous inp.tls inp.rules = false)
    (hplain : ∀ x ∈ inp.rules, effectivePort inp.tls x = 80 → ruleMode inp.tls x = Mode.HTTP)
    (hcov : ∃ b ∈ inp.tls, H ∈ b.hosts)
    (h443 : r ∈ inp.rules ∧ r.host = H ∧ r.path = p ∧ r.noTLS = false ∧
      effectivePort inp.tls r = 443)
    (hno80 : ∀ x ∈ inp.rules, x.host = H → x.path = p → effectivePort inp.tls x ≠ 80) :
    ∃ cfg, synthesize inp = .ok cfg ∧ (bindPorts cfg.frontends).Nodup ∧
      (∃ f80, IsFrontendAt cfg.frontends 80 f80 ∧ f80.mode = Mode.HTTP ∧
        (⟨H, p, Action.Redirect 443 308⟩ : PathRule) ∈ f80.rules) ∧
      (∃ f443, IsFrontendAt cfg.frontends 443 f443 ∧
        (⟨H, p, Action.Forward r.backendRef⟩ : PathRule) ∈ f443.rules) := by
  obtain ⟨l, hl⟩ := synthesize_ok_of_no_passthrough inp hpass hres hamb
  obtain ⟨hr, hhost, hpath, _, h443⟩ := h443
  refine ⟨_, hl, steps_nodup inp.annotations inp.tls inp.rules, ?_, ?_⟩
  · have hn : needsRedirect inp.tls inp.rules r = true :=
      needsRedirect_of_gap inp.tls inp.rules r (by rw [hhost]; exact hcov) h443
        (by rw [hhost, hpath]; exact hno80)
    have h1 := injectRedirects_has inp.annotations inp.tls inp.rules
      (explicitFrontends inp.tls inp.rules) hred r hr hn
    obtain ⟨f, hf, k, hat, hq, hm, hx⟩ :=
      steps_frontendAt inp.annotations inp.tls inp.rules _ _ h1
    have hmode : AllFrontends (injectRedirects inp.annotations inp.tls inp.rules
        (explicitFrontends inp.tls inp.rules)) (fun f => f.bindPort = 80 → f.mode = Mode.HTTP) :=
      injectRedirects_allFrontends _ _ _ _ _
        (explicitFrontends_all inp.tls inp.rules _ (fun _ _ _ hq => hq)
          (fun x hx => hplain x hx))
        (fun _ _ _ _ hq => hq) (fun _ _ _ _ => rfl)
    rw [hhost, hpath] at hx
    exact ⟨k, hat, hm.trans (hmode f hf hq), hx⟩
  · have h1 := injectRedirects_mono inp.annotations inp.tls inp.rules _ _ _
      (explicitFrontends_has inp.tls inp.rules r hr)
    obtain ⟨f, _, k, hat, _, _, hx⟩ :=
      steps_frontendAt inp.annotations inp.tls inp.rules _ _ h1
    rw [hhost, hpath] at hx
    rw [h443] at hat
    exact ⟨k, hat, hx⟩

/-- C4, amended: explicit precedence. Let `sslPassthrough` and `forceSSLRedirect`
be not true, every backend resolve and no two rules be ambiguous. Then the
synthesis yields a configuration that binds no port twice, and for every host `H`
and every path `p` that a rule `r80` configures at port 80 and a rule `r443` at
port 443, no frontend of that configuration has a redirect rule
for `(H, p)` or redirects at request time, its frontend at port 80 forwards
`(H, p)` to the backend of `r80`, and its frontend at port 443 forwards `(H, p)`
to the backend of `r443`. -/
theorem explicit_precedence (inp : SynthInput) (H p : String) (r80 r443 : RouteRule)
    (hpass : inp.annotations.sslPassthrough ≠ some true)
    (hforce : inp.annotations.forceSSLRedirect ≠ some true)
    (hres : ∀ x ∈ inp.rules, (inp.endpoints x.backendRef).isSome = true)
    (hamb : ambiguous inp.tls inp.rules = false)
    (h80 : r80 ∈ inp.rules ∧ r80.host = H ∧ r80.path = p ∧ effectivePort inp.tls r80 = 80)
    (h443 : r443 ∈ inp.rules ∧ r443.host = H ∧ r443.path = p ∧
      effectivePort inp.tls r443 = 443) :
    ∃ cfg, synthesize inp = .ok cfg ∧ (bindPorts cfg.frontends).Nodup ∧
      (∀ f ∈ cfg.frontends, f.forceRedirect = false ∧
        ∀ x ∈ f.rules, x.host = H → x.path = p → ∀ t c, x.action ≠ Action.Redirect t c) ∧
      (∃ f80, IsFrontendAt cfg.frontends 80 f80 ∧
        (⟨H, p, Action.Forward r80.backendRef⟩ : PathRule) ∈ f80.rules) ∧
      (∃ f443, IsFrontendAt cfg.frontends 443 f443 ∧
        (⟨H, p, Action.Forward r443.backendRef⟩ : PathRule) ∈ f443.rules) := by
  obtain ⟨l, hl⟩ := synthesize_ok_of_no_passthrough inp hpass hres hamb
  refine ⟨_, hl, steps_nodup inp.annotations inp.tls inp.rules, ?_, ?_, ?_⟩
  · have hall : AllFrontends (injectRedirects inp.annotations inp.tls inp.rules
        (explicitFrontends inp.tls inp.rules)) (fun f => f.forceRedirect = false ∧
          ∀ x ∈ f.rules, x.host = H → x.path = p → ∀ t c, x.action ≠ Action.Redirect t c) := by
      apply injectRedirects_allFrontends
      · apply explicitFrontends_all
        · intro r _ f hQ
          refine ⟨hQ.1, ?_⟩
          intro x hx hh hp t c hc
          rcases List.mem_append.mp hx with hx | hx
          · exact hQ.2 x hx hh hp t c hc
          · rw [List.mem_singleton.mp hx] at hc
            cases hc
        · intro r _
          refine ⟨rfl, ?_⟩
          intro x hx hh hp t c hc
          rw [List.mem_singleton.mp hx] at hc
          cases hc
      · intro r _ hn f hQ
        refine ⟨hQ.1, ?_⟩
        intro x hx hh hp t c hc
        rcases List.mem_append.mp hx with hx | hx
        · exact hQ.2 x hx hh hp t c hc
        · rw [List.mem_singleton.mp hx] at hh hp
          rw [needsRedirect_of_explicit inp.tls inp.rules r r80 h80.1 (h80.2.1.trans hh.symm)
            (h80.2.2.1.trans hp.symm) h80.2.2.2] at hn
          cases hn
      · intro r _ hn
        refine ⟨rfl, ?_⟩
        intro x hx hh hp t c hc
        rw [List.mem_singleton.mp hx] at hh hp
        rw [needsRedirect_of_explicit inp.tls inp.rules r r80 h80.1 (h80.2.1.trans hh.symm)
          (h80.2.2.1.trans hp.symm) h80.2.2.2] at hn
        cases hn
    intro k hk
    obtain ⟨f, hf, hkeep⟩ := pipeline_mem inp.annotations _ k hk
    obtain ⟨hfr, hsub⟩ := hkeep.2.2.2 hforce
    refine ⟨hfr.trans (hall f hf).1, ?_⟩
    intro x hx
    exact (hall f hf).2 x (hsub x hx)
  · have h1 := injectRedirects_mono inp.annotations inp.tls inp.rules _ _ _
      (explicitFrontends_has inp.tls inp.rules r80 h80.1)
    obtain ⟨f, _, k, hat, _, _, hx⟩ :=
      steps_frontendAt inp.annotations inp.tls inp.rules _ _ h1
    rw [h80.2.1, h80.2.2.1] at hx
    rw [h80.2.2.2] at hat
    exact ⟨k, hat, hx⟩
  · have h1 := injectRedirects_mono inp.annotations inp.tls inp.rules _ _ _
      (explicitFrontends_has inp.tls inp.rules r443 h443.1)
    obtain ⟨f, _, k, hat, _, _, hx⟩ :=
      steps_frontendAt inp.annotations inp.tls inp.rules _ _ h1
    rw [h443.2.1, h443.2.2.1] at hx
    rw [h443.2.2.2] at hat
    exact ⟨k, hat, hx⟩

/-- Witness of C3: the ingress of "Inject new redirect path", where `/alternate`
is served at port 80 and `/testpath` at port 443. -/
theorem redirect_gap_filling_witness :
    ∃ cfg, synthesize exInjectInput = .ok cfg ∧ (bindPorts cfg.frontends).Nodup ∧
      (∃ f80, IsFrontendAt cfg.frontends 80 f80 ∧ f80.mode = Mode.HTTP ∧
        (⟨"http.appscode.test", "/testpath", Action.Redirect 443 308⟩ : PathRule) ∈ f80.rules) ∧
      (∃ f443, IsFrontendAt cfg.frontends 443 f443 ∧
        (⟨"http.appscode.test", "/testpath", Action.Forward exBackend⟩ : PathRule) ∈
          f443.rules) :=
  redirect_gap_filling exInjectInput "http.appscode.test" "/testpath"
    ⟨"http.appscode.test", some 443, "/testpath", exBackend, false⟩
    (by decide) (by decide) (by decide) (by decide) (by decide) (by decide) (by decide)
    (by decide)

/-- C3 as stated fails in three ways, each for a host in a TLS binding with a TLS
rule for `/testpath` at port 443 and no rule for `/testpath` at port 80. With
`sslPassthrough` true the configuration has the one passthrough frontend at port
443: no frontend is bound to port 80 and the frontend at port 443 does not
forward. With `sslRedirect` false (the ingress of "With HSTS Max Age Specified")
the configuration has the frontend at port 443 alone. With a TLS rule for
`/alternate` at port 80 the frontend at port 80 is HTTPS-terminated, and no other
frontend is bound to port 80. -/
theorem redirect_gap_filling_fails_as_stated :
    (synthesize exPassthroughInput = .ok exPassthroughConfig ∧
      (∃ b ∈ exPassthroughInput.tls, "http.appscode.test" ∈ b.hosts) ∧
      (∃ r ∈ exPassthroughInput.rules, r.host = "http.appscode.test" ∧ r.path = "/testpath" ∧
        r.port = some 443 ∧ r.noTLS = false ∧ effectivePort exPassthroughInput.tls r = 443) ∧
      (∀ x ∈ exPassthroughInput.rules, effectivePort exPassthroughInput.tls x ≠ 80) ∧
      ¬ (∃ f ∈ exPassthroughConfig.frontends, f.bindPort = 80) ∧
      ¬ (∃ f ∈ exPassthroughConfig.frontends, f.bindPort = 443 ∧
          (⟨"http.appscode.test", "/testpath", Action.Forward exBackend⟩ : PathRule) ∈
            f.rules)) ∧
    (synthesize exHstsMaxAgeInput = .ok (exHstsConfig "max-age=100") ∧
      exHstsMaxAgeInput.annotations.sslPassthrough = none ∧
      exHstsMaxAgeInput.annotations.sslRedirect = some false ∧
      (∃ b ∈ exHstsMaxAgeInput.tls, "http.appscode.test" ∈ b.hosts) ∧
      (∃ r ∈ exHstsMaxAgeInput.rules, r.host = "http.appscode.test" ∧ r.path = "/testpath" ∧
        r.noTLS = false ∧ effectivePort exHstsMaxAgeInput.tls r = 443) ∧
      (∀ x ∈ exHstsMaxAgeInput.rules, effectivePort exHstsMaxAgeInput.tls x ≠ 80) ∧
      exposedPorts (exHstsConfig "max-age=100") = [443] ∧
      ¬ (∃ f ∈ (exHstsConfig "max-age=100").frontends, f.bindPort = 80)) ∧
    (synthesize exTLSAtPort80Input = .ok exTLSAtPort80Config ∧
      exTLSAtPort80Input.annotations = exNoAnnotations ∧
      (∃ b ∈ exTLSAtPort80Input.tls, "http.appscode.test" ∈ b.hosts) ∧
      (∃ r ∈ exTLSAtPort80Input.rules, r.host = "http.appscode.test" ∧ r.path = "/testpath" ∧
        r.port = some 443 ∧ r.noTLS = false ∧ effectivePort exTLSAtPort80Input.tls r = 443) ∧
      (∀ x ∈ exTLSAtPort80Input.rules, x.host = "http.appscode.test" → x.path = "/testpath" →
        effectivePort exTLSAtPort80Input.tls x ≠ 80) ∧
      (bindPorts exTLSAtPort80Config.frontends).Nodup ∧
      ¬ (∃ f ∈ exTLSAtPort80Config.frontends, f.bindPort = 80 ∧ f.mode = Mode.HTTP)) := by
  refine ⟨⟨by rfl, by decide, by decide, by decide, by decide, by decide⟩,
    ⟨by rfl, rfl, rfl, by decide, by decide, by decide, by decide, by decide⟩,
    ⟨by rfl, rfl, by decide, by decide, by decide, by decide, by decide⟩⟩

/-- Witness of C4: the ingress of "No redirect for existing path". -/
theorem explicit_precedence_witness :
    ∃ cfg, synthesize exExistingInput = .ok cfg ∧ (bindPorts cfg.frontends).Nodup ∧
      (∀ f ∈ cfg.frontends, f.forceRedirect = false ∧
        ∀ x ∈ f.rules, x.host = "http.appscode.test" → x.path = "/testpath" →
          ∀ t c, x.action ≠ Action.Redirect t c) ∧
      (∃ f80, IsFrontendAt cfg.frontends 80 f80 ∧
        (⟨"http.appscode.test", "/testpath", Action.Forward exBackend⟩ : PathRule) ∈
          f80.rules) ∧
      (∃ f443, IsFrontendAt cfg.frontends 443 f443 ∧
        (⟨"http.appscode.test", "/testpath", Action.Forward exBackend⟩ : PathRule) ∈
          f443.rules) :=
  explicit_precedence exExistingInput "http.appscode.test" "/testpath"
    ⟨"http.appscode.test", some 80, "/testpath", exBackend, true⟩
    ⟨"http.appscode.test", some 443, "/testpath", exBackend, false⟩
    (by decide) (by decide) (by decide) (by decide) (by decide) (by decide)

/-- C4 as stated fails in two ways, each with `/testpath` configured at port 80
and at port 443 for a host in a TLS binding. With `sslPassthrough` true the
configuration has the one passthrough frontend at port 443: no frontend is bound
to port 80, and the frontend at port 443 passes through instead of forwarding.
With `forceSSLRedirect` true the frontend at port 80 redirects at request time
and has gained the redirect rule of step 5 for the wildcard host and every
path. -/
theorem explicit_precedence_fails_as_stated :
    (synthesize exPassthroughExistingInput = .ok exPassthroughExistingConfig ∧
      (∃ b ∈ exPassthroughExistingInput.tls, "http.appscode.test" ∈ b.hosts) ∧
      (∃ r ∈ exPassthroughExistingInput.rules, r.host = "http.appscode.test" ∧
        r.path = "/testpath" ∧ effectivePort exPassthroughExistingInput.tls r = 80) ∧
      (∃ r ∈ exPassthroughExistingInput.rules, r.host = "http.appscode.test" ∧
        r.path = "/testpath" ∧ effectivePort exPassthroughExistingInput.tls r = 443) ∧
      ¬ (∃ f ∈ exPassthroughExistingConfig.frontends, f.bindPort = 80) ∧
      ¬ (∃ f ∈ exPassthroughExistingConfig.frontends, f.bindPort = 443 ∧
          (⟨"http.appscode.test", "/testpath", Action.Forward exBackend⟩ : PathRule) ∈
            f.rules)) ∧
    (synthesize exForceExistingInput = .ok exForceExistingConfig ∧
      exForceExistingInput.annotations.sslPassthrough = none ∧
      exForceExistingInput.annotations.forceSSLRedirect = some true ∧
      (∃ b ∈ exForceExistingInput.tls, "http.appscode.test" ∈ b.hosts) ∧
      (∃ r ∈ exForceExistingInput.rules, r.host = "http.appscode.test" ∧
        r.path = "/testpath" ∧ effectivePort exForceExistingInput.tls r = 80) ∧
      (∃ r ∈ exForceExistingInput.rules, r.host = "http.appscode.test" ∧
        r.path = "/testpath" ∧ effectivePort exForceExistingInput.tls r = 443) ∧
      (∃ f80, IsFrontendAt exForceExistingConfig.frontends 80 f80 ∧ f80.mode = Mode.HTTP ∧
        f80.forceRedirect = true ∧
        (⟨"", "", Action.Redirect 443 308⟩ : PathRule) ∈ f80.rules)) := by
  refine ⟨⟨by rfl, by decide, by decide, by decide, by decide, by decide⟩,
    ⟨by rfl, rfl, rfl, by decide, by decide, by decide,
      ⟨⟨80, Mode.HTTP, [⟨"http.appscode.test", "/testpath", Action.Forward exBackend⟩,
          ⟨"", "", Action.Redirect 443 308⟩], true, none⟩,
        ⟨by decide, rfl, by decide⟩, rfl, rfl, by decide⟩⟩⟩

/-- C5: passthrough exclusivity. With `sslPassthrough` true the synthesis either
fails because a backend is not found or yields a configuration whose only
frontend is the passthrough frontend; every configuration it yields has exactly
one frontend, bound to port 443 in TCP-passthrough mode and without any redirect
rule, so the exposed ports are 443 alone, whatever rules were supplied; and it
does yield a configuration when every backend resolves. -/
theorem passthrough_exclusive (inp : SynthInput)
    (hpass : inp.annotations.sslPassthrough = some true) :
    (synthesize inp = .error SynthError.BackendNotFound ∨
      ∃ l, synthesize inp = .ok { frontends := [passthroughFrontend inp.rules], backends := l }) ∧
    (∀ cfg, synthesize inp = .ok cfg →
      cfg.frontends.length = 1 ∧ exposedPorts cfg = [443] ∧
      ∀ f ∈ cfg.frontends, f.bindPort = 443 ∧ f.mode = Mode.TCPPassthrough ∧
        f.rules.length = inp.rules.length ∧
        ∀ x ∈ f.rules, ∀ t c, x.action ≠ Action.Redirect t c) ∧
    ((∀ x ∈ inp.rules, (inp.endpoints x.backendRef).isSome = true) →
      ∃ cfg, synthesize inp = .ok cfg) := by
  refine ⟨?_, ?_, ?_⟩
  · cases hr : resolveBackends inp.endpoints (inp.rules.map (fun r => r.backendRef)).dedup with
    | error e =>
      left
      rw [resolveBackends_error inp.endpoints _ e hr] at hr
      simp [synthesize, hr]
    | ok l =>
      right
      exact ⟨l, by simp [synthesize, hr, hpass]⟩
  · intro cfg hok
    rcases synthesize_frontends inp cfg hok with ⟨_, hf⟩ | ⟨hn, _⟩
    · refine ⟨by rw [hf]; rfl, by rw [exposedPorts, hf]; rfl, ?_⟩
      intro f hfm
      rw [hf, List.mem_singleton] at hfm
      subst hfm
      refine ⟨rfl, rfl, by simp [passthroughFrontend], ?_⟩
      intro x hx t c hc
      simp only [passthroughFrontend, List.mem_map] at hx
      obtain ⟨r, _, rfl⟩ := hx
      cases hc
    · exact absurd hpass hn
  · intro hres
    obtain ⟨l, hl⟩ := synthesize_ok_of_passthrough inp hpass hres
    exact ⟨_, hl⟩

/-- Witness of C5: two HTTP rules under `sslPassthrough` give one frontend and
the one exposed port 443. -/
theorem passthrough_exclusive_witness :
    exPassthroughExistingInput.annotations.sslPassthrough = some true ∧
    exPassthroughExistingConfig.frontends.length = 1 ∧
    exposedPorts exPassthroughExistingConfig = [443] :=
  ⟨rfl,
   ((passthrough_exclusive exPassthroughExistingInput rfl).2.1 exPassthroughExistingConfig
      (by rfl)).1,
   ((passthrough_exclusive exPassthroughExistingInput rfl).2.1 exPassthroughExistingConfig
      (by rfl)).2.1⟩

/-- C6: HSTS header composition. When an HSTS annotation is present, every
HTTPS-terminated frontend of every configuration the synthesis yields carries the
value "max-age=" followed by `hstsMaxAge` in decimal (15768000 when unset),
then "; preload" exactly when `hstsPreload` is true, then "; includeSubDomains"
exactly when `hstsIncludeSubDomains` is true; and the synthesis yields a
configuration when every backend resolves and the rules are not ambiguous or
`sslPassthrough` is true. -/
theorem hsts_header_composition (inp : SynthInput)
    (hpres : inp.annotations.hstsMaxAge.isSome = true ∨
      inp.annotations.hstsPreload.isSome = true ∨
      inp.annotations.hstsIncludeSubDomains.isSome = true) :
    (∀ cfg, synthesize inp = .ok cfg → ∀ f ∈ cfg.frontends, f.mode = Mode.HTTPSTerminated →
      f.hsts = some ("max-age=" ++ toString (inp.annotations.hstsMaxAge.getD 15768000) ++
        (if inp.annotations.hstsPreload = some true then "; preload" else "") ++
        (if inp.annotations.hstsIncludeSubDomains = some true then "; includeSubDomains"
         else ""))) ∧
    ((∀ x ∈ inp.rules, (inp.endpoints x.backendRef).isSome = true) →
      (inp.annotations.sslPassthrough = some true ∨ ambiguous inp.tls inp.rules = false) →
      ∃ cfg, synthesize inp = .ok cfg) := by
  refine ⟨?_, ?_⟩
  · intro cfg hok f hf hm
    rcases synthesize_frontends inp cfg hok with ⟨_, hfs⟩ | ⟨_, hfs⟩
    · rw [hfs, List.mem_singleton] at hf
      subst hf
      cases hm
    · have hp : hstsPresent inp.annotations = true := by
        simp only [hstsPresent, Bool.or_eq_true]
        tauto
      rw [hfs] at hf
      simp only [orderRules, attachHSTS, hp, if_true, List.map_map, List.mem_map,
        Function.comp] at hf
      obtain ⟨g, _, rfl⟩ := hf
      by_cases hg : g.mode = Mode.HTTPSTerminated
      · simp [hg, hstsHeader, fmtInt]
      · simp [hg] at hm
  · intro hres hor
    by_cases hpass : inp.annotations.sslPassthrough = some true
    · obtain ⟨l, hl⟩ := synthesize_ok_of_passthrough inp hpass hres
      exact ⟨_, hl⟩
    · rcases hor with h | h
      · exact absurd h hpass
      · obtain ⟨l, hl⟩ := synthesize_ok_of_no_passthrough inp hpass hres h
        exact ⟨_, hl⟩

/-- Witness of C6: the two HSTS ingresses of the end-to-end tests. A maximum age
of 100 alone gives "max-age=100"; preload and includeSubDomains with no maximum
age give "max-age=15768000; preload; includeSubDomains". -/
theorem hsts_header_composition_witness :
    (exHstsFrontend "max-age=100").hsts = some "max-age=100" ∧
    (exHstsFrontend "max-age=15768000; preload; includeSubDomains").hsts =
      some "max-age=15768000; preload; includeSubDomains" :=
  ⟨(hsts_header_composition exHstsMaxAgeInput (Or.inl rfl)).1 (exHstsConfig "max-age=100")
      (by rfl) (exHstsFrontend "max-age=100") (by decide) rfl,
   (hsts_header_composition exHstsPreloadInput (Or.inr (Or.inl rfl))).1
      (exHstsConfig "max-age=15768000; preload; includeSubDomains")
      (by rfl) (exHstsFrontend "max-age=15768000; preload; includeSubDomains")
      (by decide) rfl⟩

/-! ## Theorems: `CreateOrPatchCertificate` and the attempts of `TryUpdateCertificate` -/

/-- The verb of `PatchCertificateObject` and its calls: `VerbUnchanged` with no
call at all, or `VerbPatched` with the one patch request. -/
theorem PatchCertificateObject_verb {σ Spec Status : Type}
    (c : CertificateClient σ Spec Status) (json : JsonOps Spec Status) (s : σ)
    (cur m : Certificate Spec Status) :
    ((PatchCertificateObject c json s cur m).1.2.1 = VerbType.VerbUnchanged ∧
      (PatchCertificateObject c json s cur m).2.2 = []) ∨
    ((PatchCertificateObject c json s cur m).1.2.1 = VerbType.VerbPatched ∧
      ∃ p, (PatchCertificateObject c json s cur m).2.2 =
        [CallEvent.patch cur.ObjectMeta.Namespace cur.ObjectMeta.Name
          PatchType.MergePatchType p]) := by
  rcases h1 : json.Marshal cur with ⟨cj, _ | e1⟩
  · rcases h2 : json.Marshal m with ⟨mj, _ | e2⟩
    · rcases h3 : json.CreateMergePatch cj mj with ⟨p, _ | e3⟩
      · by_cases h4 : (p.length == 0 || p == "\x7b\x7d") = true
        · left
          simp only [PatchCertificateObject, h1, h2, h3, h4, if_true, and_self]
        · right
          have h4b : (p.length == 0 || p == "\x7b\x7d") = false := by simpa using h4
          simp only [PatchCertificateObject, h1, h2, h3, h4b]
          exact ⟨rfl, p, rfl⟩
      · left
        simp only [PatchCertificateObject, h1, h2, h3, and_self]
    · left
      simp only [PatchCertificateObject, h1, h2, and_self]
  · left
    simp only [PatchCertificateObject, h1, and_self]

/-- On two objects `PatchCertificateObjectPtr` is `PatchCertificateObject`. -/
theorem PatchCertificateObjectPtr_of_objects {σ Spec Status : Type}
    (c : CertificateClient σ Spec Status) (json : JsonOps Spec Status) (s : σ)
    (cur m : Certificate Spec Status) :
    PatchCertificateObjectPtr c json s (some cur) (some m) =
      .returned (PatchCertificateObject c json s cur m) := by
  rcases h1 : json.Marshal cur with ⟨cj, _ | e1⟩
  · rcases h2 : json.Marshal m with ⟨mj, _ | e2⟩
    · rcases h3 : json.CreateMergePatch cj mj with ⟨p, _ | e3⟩
      · by_cases h4 : (p.length == 0 || p == "\x7b\x7d") = true
        · simp only [PatchCertificateObjectPtr, PatchCertificateObject, marshalPointer, h1, h2,
            h3, h4, if_true]
        · have h4b : (p.length == 0 || p == "\x7b\x7d") = false := by simpa using h4
          simp only [PatchCertificateObjectPtr, PatchCertificateObject, marshalPointer, h1, h2,
            h3, h4b]
          rfl
      · simp only [PatchCertificateObjectPtr, PatchCertificateObject, marshalPointer, h1, h2, h3]
    · simp only [PatchCertificateObjectPtr, PatchCertificateObject, marshalPointer, h1, h2]
  · simp only [PatchCertificateObjectPtr, PatchCertificateObject, marshalPointer, h1]

/-- The encoding of a nil pointer. -/
theorem marshalPointer_nil {Spec Status : Type} (json : JsonOps Spec Status) :
    marshalPointer json none = ("null", none) := rfl

/-- With a nil `cur`, `PatchCertificateObjectPtr` returns only with
`VerbUnchanged`, the store untouched and no call: with a patch to send it
dereferences nil. -/
theorem PatchCertificateObjectPtr_of_nil {σ Spec Status : Type}
    (c : CertificateClient σ Spec Status) (json : JsonOps Spec Status) (s : σ)
    (m : Option (Certificate Spec Status))
    (r : Option (Certificate Spec Status) × VerbType × Option GoError) (s1 : σ)
    (tr : List (CallEvent Spec Status))
    (h : PatchCertificateObjectPtr c json s none m = .returned (r, s1, tr)) :
    r.1 = none ∧ r.2.1 = VerbType.VerbUnchanged ∧ s1 = s ∧ tr = [] := by
  rcases h2 : marshalPointer json m with ⟨mj, _ | e2⟩
  · rcases h3 : json.CreateMergePatch "null" mj with ⟨p, _ | e3⟩
    · by_cases h4 : (p.length == 0 || p == "\x7b\x7d") = true
      · simp only [PatchCertificateObjectPtr, marshalPointer_nil, h2, h3, h4, if_true] at h
        injection h with h
        simp only [Prod.mk.injEq] at h
        obtain ⟨hr, hs, ht⟩ := h
        subst hr hs ht
        exact ⟨rfl, rfl, rfl, rfl⟩
      · have h4b : (p.length == 0 || p == "\x7b\x7d") = false := by simpa using h4
        simp [PatchCertificateObjectPtr, marshalPointer_nil, h2, h3, h4b] at h
    · simp only [PatchCertificateObjectPtr, marshalPointer_nil, h2, h3] at h
      injection h with h
      simp only [Prod.mk.injEq] at h
      obtain ⟨hr, hs, ht⟩ := h
      subst hr hs ht
      exact ⟨rfl, rfl, rfl, rfl⟩
  · simp only [PatchCertificateObjectPtr, marshalPointer_nil, h2] at h
    injection h with h
    simp only [Prod.mk.injEq] at h
    obtain ⟨hr, hs, ht⟩ := h
    subst hr hs ht
    exact ⟨rfl, rfl, rfl, rfl⟩

/-- With a nil `cur` and a nil `mod`, both encodings are `null`: when their merge
patch is empty, `PatchCertificateObjectPtr` returns `(nil, VerbUnchanged, nil)`
at line 56. -/
theorem PatchCertificateObjectPtr_nil_nil {σ Spec Status : Type}
    (c : CertificateClient σ Spec Status) (json : JsonOps Spec Status) (s : σ) (p : String)
    (hp : json.CreateMergePatch "null" "null" = (p, none))
    (he : (p.length == 0 || p == "\x7b\x7d") = true) :
    PatchCertificateObjectPtr c json s none none =
      .returned ((none, VerbType.VerbUnchanged, none), s, []) := by
  simp only [PatchCertificateObjectPtr, marshalPointer_nil, hp, he, if_true]

/-- With a nil `cur` and a patch to send, `PatchCertificateObjectPtr` dereferences
nil at line 58. -/
theorem PatchCertificateObjectPtr_nil_patch {σ Spec Status : Type}
    (c : CertificateClient σ Spec Status) (json : JsonOps Spec Status) (s : σ)
    (m : Option (Certificate Spec Status)) (mj p : String)
    (hm : marshalPointer json m = (mj, none))
    (hp : json.CreateMergePatch "null" mj = (p, none))
    (he : (p.length == 0 || p == "\x7b\x7d") = false) :
    PatchCertificateObjectPtr c json s none m = .panicked := by
  simp [PatchCertificateObjectPtr, marshalPointer_nil, hm, hp, he]

/-- The ways through `CreateOrPatchCertificate`: `Get` reports `NotFound`. -/
theorem CreateOrPatchCertificate_of_not_found {σ Spec Status : Type}
    (c : CertificateClient σ Spec Status) (json : JsonOps Spec Status) (sgv : String)
    (spec0 : Spec) (status0 : Status) (s : σ) (om : ObjectMeta)
    (transform : Certificate Spec Status → Certificate Spec Status)
    (transformNil : Run (Option (Certificate Spec Status)))
    (cur : Option (Certificate Spec Status)) (e : GoError) (s1 : σ)
    (hg : c.Get s om.Namespace om.Name = ((cur, some e), s1))
    (hnf : IsNotFound (some e) = true) :
    CreateOrPatchCertificate c json sgv spec0 status0 s om transform transformNil =
      .returned (((c.Create s1 om.Namespace (transform ⟨⟨"Certificate", sgv⟩, om, spec0,
          status0⟩)).1.1, VerbType.VerbCreated,
        (c.Create s1 om.Namespace (transform ⟨⟨"Certificate", sgv⟩, om, spec0, status0⟩)).1.2),
        (c.Create s1 om.Namespace (transform ⟨⟨"Certificate", sgv⟩, om, spec0, status0⟩)).2,
        [CallEvent.get om.Namespace om.Name,
         CallEvent.transform ⟨⟨"Certificate", sgv⟩, om, spec0, status0⟩,
         CallEvent.create om.Namespace (transform ⟨⟨"Certificate", sgv⟩, om, spec0,
           status0⟩)]) := by
  simp only [CreateOrPatchCertificate, hg, hnf, if_true]

/-- The ways through `CreateOrPatchCertificate`: `Get` fails with an error that is
not `NotFound`. -/
theorem CreateOrPatchCertificate_of_get_error {σ Spec Status : Type}
    (c : CertificateClient σ Spec Status) (json : JsonOps Spec Status) (sgv : String)
    (spec0 : Spec) (status0 : Status) (s : σ) (om : ObjectMeta)
    (transform : Certificate Spec Status → Certificate Spec Status)
    (transformNil : Run (Option (Certificate Spec Status)))
    (cur : Option (Certificate Spec Status)) (e : GoError) (s1 : σ)
    (hg : c.Get s om.Namespace om.Name = ((cur, some e), s1))
    (hnf : IsNotFound (some e) = false) :
    CreateOrPatchCertificate c json sgv spec0 status0 s om transform transformNil =
      .returned ((none, VerbType.VerbUnchanged, some e), s1,
        [CallEvent.get om.Namespace om.Name]) := by
  simp [CreateOrPatchCertificate, hg, hnf]

/-- The ways through `CreateOrPatchCertificate`: `Get` finds the object. -/
theorem CreateOrPatchCertificate_of_found {σ Spec Status : Type}
    (c : CertificateClient σ Spec Status) (json : JsonOps Spec Status) (sgv : String)
    (spec0 : Spec) (status0 : Status) (s : σ) (om : ObjectMeta)
    (transform : Certificate Spec Status → Certificate Spec Status)
    (transformNil : Run (Option (Certificate Spec Status)))
    (cur : Certificate Spec Status) (s1 : σ)
    (hg : c.Get s om.Namespace om.Name = ((some cur, none), s1)) :
    CreateOrPatchCertificate c json sgv spec0 status0 s om transform transformNil =
      .returned ((PatchCertificate c json s1 cur transform).1,
        (PatchCertificate c json s1 cur transform).2.1,
        CallEvent.get om.Namespace om.Name :: (PatchCertificate c json s1 cur transform).2.2) := by
  simp [CreateOrPatchCertificate, PatchCertificatePtr, hg, IsNotFound]

/-- The ways through `CreateOrPatchCertificate`: `Get` answers with no object and
no error, and `transform(nil)` dereferences its argument. -/
theorem CreateOrPatchCertificate_of_nil_transform_panics {σ Spec Status : Type}
    (c : CertificateClient σ Spec Status) (json : JsonOps Spec Status) (sgv : String)
    (spec0 : Spec) (status0 : Status) (s : σ) (om : ObjectMeta)
    (transform : Certificate Spec Status → Certificate Spec Status) (s1 : σ)
    (hg : c.Get s om.Namespace om.Name = ((none, none), s1)) :
    CreateOrPatchCertificate c json sgv spec0 status0 s om transform .panicked =
      .panicked := by
  simp [CreateOrPatchCertificate, PatchCertificatePtr, hg, IsNotFound]

/-- The ways through `CreateOrPatchCertificate`: `Get` answers with no object and
no error, and `transform(nil)` returns `mod`. -/
theorem CreateOrPatchCertificate_of_nil {σ Spec Status : Type}
    (c : CertificateClient σ Spec Status) (json : JsonOps Spec Status) (sgv : String)
    (spec0 : Spec) (status0 : Status) (s : σ) (om : ObjectMeta)
    (transform : Certificate Spec Status → Certificate Spec Status)
    (m : Option (Certificate Spec Status)) (s1 : σ)
    (hg : c.Get s om.Namespace om.Name = ((none, none), s1)) :
    (PatchCertificateObjectPtr c json s1 none m = .panicked →
      CreateOrPatchCertificate c json sgv spec0 status0 s om transform (.returned m) =
        .panicked) ∧
    (∀ r s2 tr, PatchCertificateObjectPtr c json s1 none m = .returned (r, s2, tr) →
      CreateOrPatchCertificate c json sgv spec0 status0 s om transform (.returned m) =
        .returned (r, s2,
          CallEvent.get om.Namespace om.Name :: CallEvent.transformNil :: tr)) := by
  refine ⟨?_, ?_⟩
  · intro h
    simp [CreateOrPatchCertificate, PatchCertificatePtr, hg, IsNotFound, h]
  · intro r s2 tr h
    simp [CreateOrPatchCertificate, PatchCertificatePtr, hg, IsNotFound, h]

/-- C11: `CreateOrPatchCertificate` dispatches on the outcome of the first `Get`.
If `Get` reports `NotFound`, `Create` is called exactly once, with `transform`
applied to a fresh object of kind "Certificate", the API version of the scheme
and the given meta, and the call returns the object and error of `Create` with
`VerbCreated`; if `Get` fails with another error the call returns
`(nil, VerbUnchanged, that error)` after the `Get` alone, with no `transform`,
`Create` or `Patch`; if `Get` finds an object the call returns exactly what
`PatchCertificate` returns for it; if `Get` answers with neither an object nor
an error the call again ends as `PatchCertificate` ends on nil: it panics when
`transform(nil)` panics or when there is a patch to send, and it returns what
`PatchCertificateObject` returns before line 58 otherwise, which is
`(nil, VerbUnchanged, nil)` when `transform(nil)` is nil and the merge patch of
`null` with `null` is empty; and whenever the call returns, its verb is
`VerbCreated` exactly when `Create` was called and `VerbPatched` exactly when
`Patch` was called. -/
theorem CreateOrPatchCertificate_dispatches {σ Spec Status : Type}
    (c : CertificateClient σ Spec Status) (json : JsonOps Spec Status) (sgv : String)
    (spec0 : Spec) (status0 : Status) (s : σ) (om : ObjectMeta)
    (transform : Certificate Spec Status → Certificate Spec Status)
    (transformNil : Run (Option (Certificate Spec Status))) :
    (∀ cur e s1, c.Get s om.Namespace om.Name = ((cur, some e), s1) →
      IsNotFound (some e) = true →
      ∃ fresh : Certificate Spec Status, fresh.TypeMeta.Kind = "Certificate" ∧
        fresh.TypeMeta.APIVersion = sgv ∧ fresh.ObjectMeta = om ∧
        CreateOrPatchCertificate c json sgv spec0 status0 s om transform transformNil =
          .returned (((c.Create s1 om.Namespace (transform fresh)).1.1, VerbType.VerbCreated,
            (c.Create s1 om.Namespace (transform fresh)).1.2),
            (c.Create s1 om.Namespace (transform fresh)).2,
            [CallEvent.get om.Namespace om.Name, CallEvent.transform fresh,
             CallEvent.create om.Namespace (transform fresh)])) ∧
    (∀ cur e s1, c.Get s om.Namespace om.Name = ((cur, some e), s1) →
      IsNotFound (some e) = false →
      CreateOrPatchCertificate c json sgv spec0 status0 s om transform transformNil =
        .returned ((none, VerbType.VerbUnchanged, some e), s1,
          [CallEvent.get om.Namespace om.Name])) ∧
    (∀ cur s1, c.Get s om.Namespace om.Name = ((some cur, none), s1) →
      CreateOrPatchCertificate c json sgv spec0 status0 s om transform transformNil =
        .returned ((PatchCertificate c json s1 cur transform).1,
          (PatchCertificate c json s1 cur transform).2.1,
          CallEvent.get om.Namespace om.Name ::
            (PatchCertificate c json s1 cur transform).2.2)) ∧
    (∀ s1, c.Get s om.Namespace om.Name = ((none, none), s1) →
      (transformNil = .panicked →
        CreateOrPatchCertificate c json sgv spec0 status0 s om transform transformNil =
          .panicked) ∧
      (∀ m, transformNil = .returned m →
        (PatchCertificateObjectPtr c json s1 none m = .panicked →
          CreateOrPatchCertificate c json sgv spec0 status0 s om transform transformNil =
            .panicked) ∧
        (∀ r s2 tr, PatchCertificateObjectPtr c json s1 none m = .returned (r, s2, tr) →
          CreateOrPatchCertificate c json sgv spec0 status0 s om transform transformNil =
            .returned (r, s2,
              CallEvent.get om.Namespace om.Name :: CallEvent.transformNil :: tr))) ∧
      (∀ p, transformNil = .returned none →
        json.CreateMergePatch "null" "null" = (p, none) →
        (p.length == 0 || p == "\x7b\x7d") = true →
        CreateOrPatchCertificate c json sgv spec0 status0 s om transform transformNil =
          .returned ((none, VerbType.VerbUnchanged, none), s1,
            [CallEvent.get om.Namespace om.Name, CallEvent.transformNil])) ∧
      (∀ m mj p, transformNil = .returned m → marshalPointer json m = (mj, none) →
        json.CreateMergePatch "null" mj = (p, none) →
        (p.length == 0 || p == "\x7b\x7d") = false →
        CreateOrPatchCertificate c json sgv spec0 status0 s om transform transformNil =
          .panicked)) ∧
    (∀ r s2 tr, CreateOrPatchCertificate c json sgv spec0 status0 s om transform transformNil =
        .returned (r, s2, tr) →
      (r.2.1 = VerbType.VerbCreated ↔ ∃ ns obj, CallEvent.create ns obj ∈ tr) ∧
      (r.2.1 = VerbType.VerbPatched ↔ ∃ ns name pt p, CallEvent.patch ns name pt p ∈ tr)) := by
  refine ⟨?_, ?_, ?_, ?_, ?_⟩
  · intro cur e s1 hg hnf
    exact ⟨⟨⟨"Certificate", sgv⟩, om, spec0, status0⟩, rfl, rfl, rfl,
      CreateOrPatchCertificate_of_not_found c json sgv spec0 status0 s om transform
        transformNil cur e s1 hg hnf⟩
  · intro cur e s1 hg hnf
    exact CreateOrPatchCertificate_of_get_error c json sgv spec0 status0 s om transform
      transformNil cur e s1 hg hnf
  · intro cur s1 hg
    exact CreateOrPatchCertificate_of_found c json sgv spec0 status0 s om transform
      transformNil cur s1 hg
  · intro s1 hg
    refine ⟨?_, ?_, ?_, ?_⟩
    · intro ht
      subst ht
      exact CreateOrPatchCertificate_of_nil_transform_panics c json sgv spec0 status0 s om
        transform s1 hg
    · intro m ht
      subst ht
      exact CreateOrPatchCertificate_of_nil c json sgv spec0 status0 s om transform m s1 hg
    · intro p ht hp he
      subst ht
      exact (CreateOrPatchCertificate_of_nil c json sgv spec0 status0 s om transform none s1
        hg).2 _ _ _ (PatchCertificateObjectPtr_nil_nil c json s1 p hp he)
    · intro m mj p ht hm hp he
      subst ht
      exact (CreateOrPatchCertificate_of_nil c json sgv spec0 status0 s om transform m s1
        hg).1 (PatchCertificateObjectPtr_nil_patch c json s1 m mj p hm hp he)
  · intro r s2 tr hres
    rcases hg : c.Get s om.Namespace om.Name with ⟨⟨cur, _ | e⟩, s1⟩
    · cases cur with
      | none =>
        cases transformNil with
        | panicked =>
          rw [CreateOrPatchCertificate_of_nil_transform_panics c json sgv spec0 status0 s om
            transform s1 hg] at hres
          cases hres
        | returned m =>
          cases hp : PatchCertificateObjectPtr c json s1 none m with
          | panicked =>
            rw [(CreateOrPatchCertificate_of_nil c json sgv spec0 status0 s om transform m s1
              hg).1 hp] at hres
            cases hres
          | returned a =>
            obtain ⟨r1, s3, tr1⟩ := a
            rw [(CreateOrPatchCertificate_of_nil c json sgv spec0 status0 s om transform m s1
              hg).2 r1 s3 tr1 hp] at hres
            injection hres with hres
            simp only [Prod.mk.injEq] at hres
            obtain ⟨hr, _, htr⟩ := hres
            subst hr htr
            obtain ⟨_, hv, _, ht⟩ := PatchCertificateObjectPtr_of_nil c json s1 m r1 s3 tr1 hp
            simp [hv, ht]
      | some cur =>
        rw [CreateOrPatchCertificate_of_found c json sgv spec0 status0 s om transform
          transformNil cur s1 hg] at hres
        injection hres with hres
        simp only [Prod.mk.injEq] at hres
        obtain ⟨hr, _, htr⟩ := hres
        subst hr htr
        simp only [PatchCertificate]
        rcases PatchCertificateObject_verb c json s1 cur (transform cur) with
          ⟨hv, ht⟩ | ⟨hv, p, ht⟩
        · simp [hv, ht]
        · simp [hv, ht]
    · by_cases hnf : IsNotFound (some e) = true
      · rw [CreateOrPatchCertificate_of_not_found c json sgv spec0 status0 s om transform
          transformNil cur e s1 hg hnf] at hres
        injection hres with hres
        simp only [Prod.mk.injEq] at hres
        obtain ⟨hr, _, htr⟩ := hres
        subst hr htr
        simp
      · rw [CreateOrPatchCertificate_of_get_error c json sgv spec0 status0 s om transform
          transformNil cur e s1 hg (by simpa using hnf)] at hres
        injection hres with hres
        simp only [Prod.mk.injEq] at hres
        obtain ⟨hr, _, htr⟩ := hres
        subst hr htr
        simp

/-- Witness of C11: on the empty store the certificate is created from the fresh
object; a server timeout of `Get` is handed on after the `Get` alone; and when
`Get` answers with no object and no error and `transform(nil)` is nil, the call
returns `(nil, VerbUnchanged, nil)`. -/
theorem CreateOrPatchCertificate_dispatches_witness :
    (∃ fresh : Certificate String String, fresh.TypeMeta.Kind = "Certificate" ∧
      fresh.TypeMeta.APIVersion = "voyager.appscode.com/v1beta1" ∧
      fresh.ObjectMeta = exCert.ObjectMeta ∧
      CreateOrPatchCertificate exEmptyClient exJson "voyager.appscode.com/v1beta1" "" "" 0
          exCert.ObjectMeta (fun x => { x with Spec := "example.com" }) .panicked =
        .returned (((exEmptyClient.Create 1 "demo"
            ((fun x => { x with Spec := "example.com" }) fresh)).1.1, VerbType.VerbCreated,
          (exEmptyClient.Create 1 "demo"
            ((fun x => { x with Spec := "example.com" }) fresh)).1.2),
          (exEmptyClient.Create 1 "demo"
            ((fun x => { x with Spec := "example.com" }) fresh)).2,
          [CallEvent.get "demo" "web", CallEvent.transform fresh,
           CallEvent.create "demo" ((fun x => { x with Spec := "example.com" }) fresh)])) ∧
    CreateOrPatchCertificate exNilOnErrorClient exJson "voyager.appscode.com/v1beta1" "" "" 0
        exCert.ObjectMeta (fun x => x) .panicked =
      .returned ((none, VerbType.VerbUnchanged, some exServerTimeout), 1,
        [CallEvent.get "demo" "web"]) ∧
    CreateOrPatchCertificate exNilNilClient exJson "voyager.appscode.com/v1beta1" "" "" 0
        exCert.ObjectMeta (fun x => x) (.returned none) =
      .returned ((none, VerbType.VerbUnchanged, none), 1,
        [CallEvent.get "demo" "web", CallEvent.transformNil]) :=
  ⟨(CreateOrPatchCertificate_dispatches exEmptyClient exJson "voyager.appscode.com/v1beta1"
      "" "" 0 exCert.ObjectMeta (fun x => { x with Spec := "example.com" }) .panicked).1 none
      exNotFound 1 (by decide) (by decide),
   (CreateOrPatchCertificate_dispatches exNilOnErrorClient exJson
      "voyager.appscode.com/v1beta1" "" "" 0 exCert.ObjectMeta (fun x => x) .panicked).2.1 none
      exServerTimeout 1 (by decide) (by decide),
   ((CreateOrPatchCertificate_dispatches exNilNilClient exJson
      "voyager.appscode.com/v1beta1" "" "" 0 exCert.ObjectMeta (fun x => x)
      (.returned none)).2.2.2.1 1 (by decide)).2.2.1 "\x7b\x7d" rfl (by decide) (by decide)⟩

/-- An evaluation of `CreateOrPatchCertificate`: the certificate exists and the
transform changes its status, so one merge patch is sent and the verb is
`VerbPatched`. -/
theorem CreateOrPatchCertificate_patches_existing :
    CreateOrPatchCertificate exClient exJson "voyager.appscode.com/v1beta1" "" "" 0
        exCert.ObjectMeta (fun x => { x with Status := "issued" }) .panicked =
      .returned ((some { exCert with Status := "\x7bweb:example.com:issued\x7d" },
          VerbType.VerbPatched, none), 2,
        [CallEvent.get "demo" "web", CallEvent.transform exCert,
         CallEvent.patch "demo" "web" PatchType.MergePatchType
           "\x7bweb:example.com:issued\x7d"]) := by
  decide

/-- An evaluation of `CreateOrPatchCertificate`: `Get` answers with no object and
no error and `transform(nil)` builds an object, so there is a patch to send and
line 58 dereferences the nil `cur`. -/
theorem CreateOrPatchCertificate_nil_with_patch_panics :
    CreateOrPatchCertificate exNilNilClient exJson "voyager.appscode.com/v1beta1" "" "" 0
        exCert.ObjectMeta (fun x => x) (.returned (some exCert)) = .panicked := by
  decide

/-! ## Theorems: the lines `RenderConfig` keeps -/

/-- The characters of a joined text. -/
theorem Join_data (sep : String) :
    ∀ L : List String, (strings.Join L sep).data =
      strings.joinChars sep.data (L.map String.data) := by
  intro L
  induction L with
  | nil => rfl
  | cons a rest ih =>
    cases rest with
    | nil => rfl
    | cons b r =>
      simp only [strings.Join, String.data_append, List.map_cons, strings.joinChars]
      rw [ih]
      simp only [List.map_cons]

/-- A split text has at least one piece. -/
theorem splitChars_ne_nil (sep : Char) : ∀ cs : List Char, strings.splitChars sep cs ≠ [] := by
  intro cs
  induction cs with
  | nil => simp [strings.splitChars]
  | cons c cs ih =>
    unfold strings.splitChars
    split
    · simp
    · split <;> simp

/-- No piece of a split text holds the separator. -/
theorem splitChars_no_sep (sep : Char) :
    ∀ cs : List Char, ∀ p ∈ strings.splitChars sep cs, sep ∉ p := by
  intro cs
  induction cs with
  | nil =>
    intro p hp
    simp only [strings.splitChars, List.mem_singleton] at hp
    subst hp
    simp
  | cons c cs ih =>
    intro p hp
    unfold strings.splitChars at hp
    split at hp
    · rcases List.mem_cons.mp hp with h | h
      · subst h; simp
      · exact ih p h
    · rename_i hc
      split at hp
      · rename_i hnil
        exact absurd hnil (splitChars_ne_nil sep cs)
      · rename_i piece rest heq
        rcases List.mem_cons.mp hp with h | h
        · subst h
          intro hmem
          rcases List.mem_cons.mp hmem with h1 | h1
          · exact hc h1.symm
          · exact ih piece (by rw [heq]; exact List.mem_cons_self _ _) h1
        · exact ih p (by rw [heq]; exact List.mem_cons_of_mem _ h)

/-- A text without the separator splits into itself. -/
theorem splitChars_of_no_sep (sep : Char) :
    ∀ a : List Char, sep ∉ a → strings.splitChars sep a = [a] := by
  intro a
  induction a with
  | nil => intro _; rfl
  | cons c cs ih =>
    intro h
    have hc : ¬ c = sep := fun hc => h (by rw [hc]; exact List.mem_cons_self _ _)
    have hcs : sep ∉ cs := fun hm => h (List.mem_cons_of_mem _ hm)
    simp only [strings.splitChars, hc, if_false, ih hcs]

/-- A text without the separator, the separator and a rest split into that text
and the pieces of the rest. -/
theorem splitChars_append_sep (sep : Char) (rest : List Char) :
    ∀ a : List Char, sep ∉ a →
      strings.splitChars sep (a ++ sep :: rest) = a :: strings.splitChars sep rest := by
  intro a
  induction a with
  | nil => intro _; simp [strings.splitChars]
  | cons c cs ih =>
    intro h
    have hc : ¬ c = sep := fun hc => h (by rw [hc]; exact List.mem_cons_self _ _)
    have hcs : sep ∉ cs := fun hm => h (List.mem_cons_of_mem _ hm)
    simp only [List.cons_append, strings.splitChars, hc, if_false, List.append_eq, ih hcs]

/-- Splitting undoes joining: pieces without the separator, at least one of them,
come back from their join. -/
theorem splitChars_joinChars (sep : Char) :
    ∀ L : List (List Char), L ≠ [] → (∀ l ∈ L, sep ∉ l) →
      strings.splitChars sep (strings.joinChars [sep] L) = L := by
  intro L
  induction L with
  | nil => intro h; exact absurd rfl h
  | cons a rest ih =>
    intro _ hL
    cases rest with
    | nil =>
      exact splitChars_of_no_sep sep a (hL a (List.mem_cons_self _ _))
    | cons b r =>
      simp only [strings.joinChars, List.append_assoc, List.singleton_append]
      rw [splitChars_append_sep sep _ a (hL a (List.mem_cons_self _ _)),
        ih (by simp) (fun l hl => hL l (List.mem_cons_of_mem _ hl))]

/-- No line of a text split at the newline holds a newline. -/
theorem Split_no_newline (s : String) : ∀ line ∈ strings.Split s '\n', '\n' ∉ line.data := by
  intro line hl
  obtain ⟨p, hp, rfl⟩ := List.mem_map.mp hl
  exact splitChars_no_sep '\n' s.data p hp

/-- A line that is not blank has a character. -/
theorem notBlank_data_ne_nil (line : String) (h : notBlank line = true) : line.data ≠ [] := by
  intro hd
  have hl : line = "" := String.ext hd
  subst hl
  revert h
  decide

/-- The lines kept by the filter are not blank and hold no newline. -/
theorem kept_lines (s : String) :
    ∀ line ∈ (strings.Split s '\n').filter notBlank,
      strings.TrimSpace line ≠ "" ∧ '\n' ∉ line.data := by
  intro line hl
  obtain ⟨hmem, hnb⟩ := List.mem_filter.mp hl
  exact ⟨by simpa [notBlank] using hnb, Split_no_newline s line hmem⟩

/-- Lines without a newline, at least one of them, come back when their join is
split at the newline. -/
theorem Split_Join (L : List String) (hne : L ≠ []) (hL : ∀ l ∈ L, '\n' ∉ l.data) :
    strings.Split (strings.Join L "\n") '\n' = L := by
  unfold strings.Split
  rw [Join_data]
  have hsep : ("\n" : String).data = ['\n'] := rfl
  rw [hsep, splitChars_joinChars '\n' (L.map String.data) (by simpa using hne)
    (by
      intro l hl
      obtain ⟨x, hx, rfl⟩ := List.mem_map.mp hl
      exact hL x hx)]
  rw [List.map_map]
  have hid : (String.mk ∘ String.data) = id := by
    funext x
    rfl
  rw [hid, List.map_id]

/-- The join begins as its first piece does, when that piece is not empty. -/
theorem joinChars_head (sep a : List Char) (rest : List (List Char)) (ha : a ≠ []) :
    (strings.joinChars sep (a :: rest)).head? = a.head? := by
  cases a with
  | nil => exact absurd rfl ha
  | cons x xs =>
    cases rest with
    | nil => rfl
    | cons b r => simp [strings.joinChars]

/-- The join ends as its last piece does, when that piece is not empty. -/
theorem joinChars_getLast (sep : List Char) :
    ∀ (L : List (List Char)) (l : List Char), L.getLast? = some l → l ≠ [] →
      (strings.joinChars sep L).getLast? = l.getLast? := by
  intro L
  induction L with
  | nil => intro l h; simp at h
  | cons a rest ih =>
    intro l h hl
    cases rest with
    | nil =>
      simp only [List.getLast?_singleton, Option.some.injEq] at h
      subst h
      rfl
    | cons b r =>
      rw [List.getLast?_cons_cons] at h
      have h1 := ih l h hl
      simp only [strings.joinChars, List.getLast?_append, h1]
      obtain ⟨c, hc⟩ := Option.isSome_iff_exists.mp (List.getLast?_isSome.mpr hl)
      simp [hc]

/-- The filter of `RenderConfig` written with `notBlank`. -/
theorem dropBlankLines_eq (s : String) :
    dropBlankLines s = strings.Join ((strings.Split s '\n').filter notBlank) "\n" := rfl

/-- A text that is not empty after the filter reads back, line by line, as the
lines that were kept. -/
theorem Split_dropBlankLines (s : String) (h : dropBlankLines s ≠ "") :
    strings.Split (dropBlankLines s) '\n' = (strings.Split s '\n').filter notBlank := by
  rw [dropBlankLines_eq] at h ⊢
  apply Split_Join
  · intro hnil
    rw [hnil] at h
    exact h rfl
  · intro l hl
    exact (kept_lines s l hl).2

/-- The filter of `RenderConfig` changes nothing when it is applied again. -/
theorem dropBlankLines_idem (s : String) : dropBlankLines (dropBlankLines s) = dropBlankLines s := by
  by_cases h : dropBlankLines s = ""
  · rw [h]
    decide
  · rw [dropBlankLines_eq (dropBlankLines s), Split_dropBlankLines s h, List.filter_filter]
    simp only [Bool.and_self]
    rfl

/-- The filtered text does not begin with a newline. -/
theorem dropBlankLines_head (s : String) : (dropBlankLines s).data.head? ≠ some '\n' := by
  rw [dropBlankLines_eq, Join_data]
  cases hL : (strings.Split s '\n').filter notBlank with
  | nil => simp [strings.joinChars]
  | cons a rest =>
    have ha : a ∈ (strings.Split s '\n').filter notBlank := by rw [hL]; exact List.mem_cons_self _ _
    have hnb : notBlank a = true := (List.mem_filter.mp ha).2
    have hne := notBlank_data_ne_nil a hnb
    rw [List.map_cons, joinChars_head _ _ _ hne]
    intro hh
    exact (kept_lines s a ha).2 (List.mem_of_mem_head? hh)

/-- The filtered text does not end with a newline. -/
theorem dropBlankLines_getLast (s : String) : (dropBlankLines s).data.getLast? ≠ some '\n' := by
  rw [dropBlankLines_eq, Join_data]
  cases hlast : ((strings.Split s '\n').filter notBlank).getLast? with
  | none =>
    rw [List.getLast?_eq_none_iff.mp hlast]
    simp [strings.joinChars]
  | some a =>
    have ha : a ∈ (strings.Split s '\n').filter notBlank := List.mem_of_getLast?_eq_some hlast
    have hnb : notBlank a = true := (List.mem_filter.mp ha).2
    have hne := notBlank_data_ne_nil a hnb
    have hl2 : (((strings.Split s '\n').filter notBlank).map String.data).getLast? =
        some a.data := by
      rw [List.getLast?_map, hlast]
      rfl
    rw [joinChars_getLast _ _ a.data hl2 hne]
    intro hh
    exact (kept_lines s a ha).2 (List.mem_of_getLast?_eq_some hh)

/-- C12, amended: the successful output of `RenderConfig` is the template output
without its blank lines. For every template output `s` the returned text is the
join, by newlines, of the lines of `s` (split at the newline) whose trimmed form
is not empty; these lines stand in their original order and are unchanged; none
of them is blank or holds a newline; a returned text that is not empty reads
back, line by line, as exactly these lines, so it has no empty or white line;
the returned text does not begin or end with a newline; and the same filter
applied to it returns it unchanged. -/
theorem RenderConfig_output_lines {T D : Type} (ops : TemplateOps T D) (tpl : T) (d : D)
    (w : List (RenderEvent D)) (s : String)
    (hv : ops.IsValid (ops.Canonicalize d) = none)
    (hx : ops.ExecuteTemplate tpl "haproxy.cfg" (ops.Canonicalize d) = (s, none)) :
    (RenderConfig ops tpl d w).1 =
      (strings.Join ((strings.Split s '\n').filter
        (fun line => strings.TrimSpace line != "")) "\n", none) ∧
    List.Sublist ((strings.Split s '\n').filter (fun line => strings.TrimSpace line != ""))
      (strings.Split s '\n') ∧
    (∀ line ∈ (strings.Split s '\n').filter (fun line => strings.TrimSpace line != ""),
      strings.TrimSpace line ≠ "" ∧ '\n' ∉ line.data) ∧
    ((RenderConfig ops tpl d w).1.1 ≠ "" →
      strings.Split (RenderConfig ops tpl d w).1.1 '\n' =
        (strings.Split s '\n').filter (fun line => strings.TrimSpace line != "") ∧
      ∀ line ∈ strings.Split (RenderConfig ops tpl d w).1.1 '\n',
        strings.TrimSpace line ≠ "") ∧
    (RenderConfig ops tpl d w).1.1.data.head? ≠ some '\n' ∧
    (RenderConfig ops tpl d w).1.1.data.getLast? ≠ some '\n' ∧
    strings.Join ((strings.Split (RenderConfig ops tpl d w).1.1 '\n').filter
      (fun line => strings.TrimSpace line != "")) "\n" = (RenderConfig ops tpl d w).1.1 := by
  rw [RenderConfig_of_exec_ok ops tpl d w s hv hx]
  refine ⟨rfl, List.filter_sublist _, kept_lines s, ?_, dropBlankLines_head s,
    dropBlankLines_getLast s, dropBlankLines_idem s⟩
  intro hne
  have hsplit := Split_dropBlankLines s hne
  refine ⟨hsplit, ?_⟩
  intro line hl
  exact (kept_lines s line (by rw [← hsplit]; exact hl)).1

/-- Witness of C12: a template output of six lines, three of them blank, gives
the three others joined, and the text reads back as these three lines. -/
theorem RenderConfig_output_lines_witness :
    (RenderConfig exEchoOps () "global\n\n  daemon \n\t\nfrontend x\n" []).1 =
      ("global\n  daemon \nfrontend x", none) ∧
    strings.Split (RenderConfig exEchoOps () "global\n\n  daemon \n\t\nfrontend x\n" []).1.1
      '\n' = ["global", "  daemon ", "frontend x"] :=
  ⟨(RenderConfig_output_lines exEchoOps () "global\n\n  daemon \n\t\nfrontend x\n" []
      "global\n\n  daemon \n\t\nfrontend x\n" rfl rfl).1,
   ((RenderConfig_output_lines exEchoOps () "global\n\n  daemon \n\t\nfrontend x\n" []
      "global\n\n  daemon \n\t\nfrontend x\n" rfl rfl).2.2.2.1 (by decide)).1⟩

/-- C12 as stated fails: a template output of blank lines only gives the empty
text with no error, and the empty text, split at the newline as the claim splits
the template output, is one line, which is empty. -/
theorem RenderConfig_blank_output_has_empty_line :
    (RenderConfig exEchoOps () "\n  \n\t\n" []).1 = ("", none) ∧
    strings.Split (RenderConfig exEchoOps () "\n  \n\t\n" []).1.1 '\n' = [""] ∧
    ¬ (∀ line ∈ strings.Split (RenderConfig exEchoOps () "\n  \n\t\n" []).1.1 '\n',
        strings.TrimSpace line ≠ "") := by
  refine ⟨by decide, by decide, by decide⟩

/-- An attempt of `TryUpdateCertificate` dereferences nil exactly when `Get` hands
back no object and its error is not `NotFound`: in every other case the attempt
returns. -/
theorem tryUpdateAttempt_panicked_iff {σ Spec Status : Type}
    (c : CertificateClient σ Spec Status) (om : ObjectMeta)
    (transform : Certificate Spec Status → Certificate Spec Status)
    (st : TryState σ Spec Status) :
    tryUpdateAttempt c om transform st = Run.panicked ↔
      (c.Get st.store om.Namespace om.Name).1.1 = none ∧
      IsNotFound (c.Get st.store om.Namespace om.Name).1.2 = false := by
  rcases hg : c.Get st.store om.Namespace om.Name with ⟨⟨cur, e2⟩, s1⟩
  by_cases hnf : IsNotFound e2 = true
  · simp [tryUpdateAttempt, hg, hnf]
  · have hnf2 : IsNotFound e2 = false := by simpa using hnf
    cases e2 with
    | none => cases cur <;> simp [tryUpdateAttempt, hg, IsNotFound]
    | some e => cases cur <;> simp [tryUpdateAttempt, hg, hnf2]

/-- C13, at a failing input: the first attempt of `TryUpdateCertificate` against
a client whose `Get` fails with a server timeout and hands back a nil object does
not return `(false, nil)`: it dereferences the nil object in the arguments of the
log line 74. -/
theorem tryUpdateAttempt_panics_on_nil_object :
    tryUpdateAttempt exNilOnErrorClient exCert.ObjectMeta (fun x => x)
      { attempt := 0, result := none, store := 0, trace := [] } = Run.panicked := by
  rfl

end Voyager
